import Mathlib

/-!
Verification of the balloon-lang execution core: a shallow embedding of the
type checker (`typechecker.rs` over the AST of `ast.rs`), the pure operator
implementations (`operations.rs`), and the tree-walking evaluator
(`ast_walk_interpreter.rs`), together with theorems settling the spec's
claims about branch merging, scope discipline, issue accumulation,
short-circuit evaluation, the value-required rule, calling convention,
subscripting, arity checking and the `+` dispatch table.

Modules of the repository that are not present in the source tree
(`value.rs`, `environment.rs`, `function.rs`, `runtime.rs`, `builtins.rs`,
and the interpreter-side AST) are modelled from the spec; each such
definition carries a doc comment starting `Modelled from the spec:`.
Recursion through the AST and through environment chains is made structural
on an explicit fuel parameter; exhausting fuel is a distinguished outcome
(`fuelOut` / `timeout`), separate from the outcome modelling a Rust panic
(`panicked`).
-/

/-- Source position attached to every AST node (`pub type SpanPos = (usize, usize)`). -/
abbrev SpanPos : Type := Nat × Nat

namespace ast

/-- `ast.rs` `BinaryOp`. -/
inductive BinaryOp where
  | add | sub | mul | div | floorDiv
  | lessThan | lessThanOrEqual | greaterThan | greaterThanOrEqual
  | strictEquals
  deriving DecidableEq

/-- `ast.rs` `LogicalBinaryOp`. -/
inductive LogicalBinaryOp where
  | logicalAnd | logicalOr
  deriving DecidableEq

/-- `ast.rs` `UnaryOp`. -/
inductive UnaryOp where
  | minus
  deriving DecidableEq

/-- `ast.rs` `LogicalUnaryOp`. -/
inductive LogicalUnaryOp where
  | notOp
  deriving DecidableEq

/-- `ast.rs` `Literal`. Rust `f64` literals are modelled as rationals; no
claim depends on IEEE float behaviour. -/
inductive Literal where
  | integer (n : Int)
  | float (q : Rat)
  | bool (b : Bool)
  deriving DecidableEq

/-- `ast.rs` `LhsExpr`. -/
inductive LhsExpr where
  | identifier (id : String)
  deriving DecidableEq

/-- A position-tagged `LhsExpr`, as accessed via `.data` / `.pos` by both passes. -/
structure LhsExprNode where
  pos : SpanPos
  data : LhsExpr
  deriving DecidableEq

/-- `ast.rs` `BindingType`. -/
inductive BindingType where
  | mutableBinding
  deriving DecidableEq

/-- `ast.rs` `Variable`. -/
inductive Variable where
  | identifier (bt : BindingType) (id : String)
  deriving DecidableEq

/-- `ast.rs` `Expr`/`ExprNode`, flattened so that each constructor carries the
node's `pos` first and its `Expr` payload after. -/
inductive ExprNode where
  | literal (pos : SpanPos) (l : Literal)
  | identifier (pos : SpanPos) (id : String)
  | binaryExpression (pos : SpanPos) (e1 : ExprNode) (op : BinaryOp) (e2 : ExprNode)
  | binaryLogicalExpression (pos : SpanPos) (e1 : ExprNode) (op : LogicalBinaryOp) (e2 : ExprNode)
  | unaryExpression (pos : SpanPos) (op : UnaryOp) (e : ExprNode)
  | unaryLogicalExpression (pos : SpanPos) (op : LogicalUnaryOp) (e : ExprNode)
  | functionCall (pos : SpanPos) (id : String) (args : List ExprNode)

/-- The `pos` field of an `ExprNode`. -/
def ExprNode.pos : ExprNode → SpanPos
  | .literal p _ => p
  | .identifier p _ => p
  | .binaryExpression p _ _ _ => p
  | .binaryLogicalExpression p _ _ _ => p
  | .unaryExpression p _ _ => p
  | .unaryLogicalExpression p _ _ => p
  | .functionCall p _ _ => p

/-- `ast.rs` `Statement`/`StatementNode`, flattened with the node's `pos` first. -/
inductive StatementNode where
  | assignment (pos : SpanPos) (lhs : LhsExprNode) (e : ExprNode)
  | variableDeclaration (pos : SpanPos) (v : Variable) (e : ExprNode)
  | expression (pos : SpanPos) (e : ExprNode)
  | block (pos : SpanPos) (ss : List StatementNode)
  | ifThen (pos : SpanPos) (c : ExprNode) (thenBlock : StatementNode)
  | ifThenElse (pos : SpanPos) (c : ExprNode) (thenBlock elseBlock : StatementNode)
  | loop (pos : SpanPos) (b : StatementNode)
  | breakStmt (pos : SpanPos)
  | empty (pos : SpanPos)

/-- The `pos` field of a `StatementNode`. -/
def StatementNode.pos : StatementNode → SpanPos
  | .assignment p _ _ => p
  | .variableDeclaration p _ _ => p
  | .expression p _ => p
  | .block p _ => p
  | .ifThen p _ _ => p
  | .ifThenElse p _ _ _ => p
  | .loop p _ => p
  | .breakStmt p => p
  | .empty p => p

end ast

/-- `typechecker.rs` `Type`: the 3-value lattice (named `Ty` because `Type` is
reserved in Lean). -/
inductive Ty where
  | number | bool | any
  deriving DecidableEq

/-- `typechecker.rs` `impl From<ast::Literal> for Type`. -/
def Ty.fromLiteral : ast.Literal → Ty
  | .integer _ => .number
  | .float _ => .number
  | .bool _ => .bool

/-- Modelled from the spec: the static error kinds of `interpreter.rs`
(absent from the source tree), restricted to the constructors the type
checker actually builds (`ReferenceError`, `UndeclaredAssignment`,
`NoneError`, `UnaryTypeError`, `BinaryTypeError`; spec §4.3 error kinds). -/
inductive InterpreterError where
  | referenceError (id : String)
  | undeclaredAssignment (id : String)
  | noneError (id : String)
  | unaryTypeError (op : ast.UnaryOp) (t : Ty)
  | binaryTypeError (op : ast.BinaryOp) (t1 t2 : Ty)
  deriving DecidableEq

/-- `typechecker.rs` `TypeCheckerIssue`. -/
inductive TypeCheckerIssue where
  | interpreterError (e : InterpreterError)
  | multipleTypesFromBranchWarning (id : String)
  deriving DecidableEq

/-- `typechecker.rs` `TypeCheckerIssueWithPosition`. -/
abbrev TypeCheckerIssueWithPosition : Type := TypeCheckerIssue × SpanPos

/-- One scope of the `TypeEnvironment`: a `HashMap<String, Type>` modelled as
an association list whose `insert` overwrites the binding if present. -/
abbrev SymbolTable : Type := List (String × Ty)

/-- `HashMap::insert`: overwrite the binding for `k` if present, else add it. -/
def SymbolTable.insert (t : SymbolTable) (k : String) (v : Ty) : SymbolTable :=
  match t with
  | [] => [(k, v)]
  | (k', v') :: rest =>
    if k' = k then (k, v) :: rest else (k', v') :: SymbolTable.insert rest k v

/-- `HashMap::contains_key`. -/
def SymbolTable.containsKey (t : SymbolTable) (k : String) : Bool :=
  match t with
  | [] => false
  | (k', _) :: rest => k' = k || SymbolTable.containsKey rest k

/-- `HashMap::get`. -/
def SymbolTable.getKey (t : SymbolTable) (k : String) : Option Ty :=
  match t with
  | [] => none
  | (k', v') :: rest => if k' = k then some v' else SymbolTable.getKey rest k

/-- `typechecker.rs` `TypeEnvironment`: the scope stack `symbol_tables`.
Rust pushes and pops at the END of the `Vec`; here the HEAD of the list is
the innermost scope, so Rust's `iter().rev()` (innermost→outermost) is plain
head-to-tail traversal. -/
structure TypeEnvironment where
  symbol_tables : List SymbolTable
  deriving DecidableEq

namespace TypeEnvironment

/-- `TypeEnvironment::new`. -/
def new : TypeEnvironment := ⟨[]⟩

/-- `TypeEnvironment::start_scope`: push an empty innermost scope. -/
def start_scope (env : TypeEnvironment) : TypeEnvironment :=
  ⟨[] :: env.symbol_tables⟩

/-- `TypeEnvironment::end_scope`: pop the innermost scope. -/
def end_scope (env : TypeEnvironment) : TypeEnvironment :=
  ⟨env.symbol_tables.tail⟩

/-- `TypeEnvironment::declare`: insert into the innermost scope only.
Returns `none` when there is no scope (Rust's `last_mut().unwrap()` panics). -/
def declare (env : TypeEnvironment) (v : ast.Variable) (typ : Ty) :
    Option TypeEnvironment :=
  match v with
  | .identifier _ id =>
    match env.symbol_tables with
    | [] => none
    | t :: rest => some ⟨t.insert id typ :: rest⟩

/-- The scope walk of `TypeEnvironment::set` over the scope stack. -/
def set_tables (id : String) (typ : Ty) : List SymbolTable → Bool × List SymbolTable
  | [] => (false, [])
  | t :: rest =>
    if t.containsKey id then (true, t.insert id typ :: rest)
    else
      let (found, rest') := set_tables id typ rest
      (found, t :: rest')

/-- `TypeEnvironment::set`: walk innermost→outermost, overwrite the first
scope containing `id`; the `Bool` reports whether a target was found. -/
def set (env : TypeEnvironment) (id : String) (typ : Ty) :
    Bool × TypeEnvironment :=
  let (found, tables) := set_tables id typ env.symbol_tables
  (found, ⟨tables⟩)

/-- The scope walk of `TypeEnvironment::get_type` over the scope stack. -/
def get_type_tables (id : String) : List SymbolTable → Option Ty
  | [] => none
  | t :: rest =>
    match t.getKey id with
    | some typ => some typ
    | none => get_type_tables id rest

/-- `TypeEnvironment::get_type`: walk innermost→outermost, first match wins. -/
def get_type (env : TypeEnvironment) (id : String) : Option Ty :=
  get_type_tables id env.symbol_tables

/-- `TypeEnvironment::get_all_keys`: the set of names visible in any scope,
modelled as a deduplicated list (the Rust `HashSet` iterates in an
unspecified order; only membership and multiplicity matter to the claims). -/
def get_all_keys (env : TypeEnvironment) : List String :=
  (env.symbol_tables.flatMap (fun t => t.map Prod.fst)).dedup

end TypeEnvironment

/-- Modelled from the spec: `builtins.rs` is absent from the source tree.
§6: a builtin registry exposing per name a void-vs-returning classification;
§4.4: value-returning builtin calls check to `Any`, void ones to no value,
unknown names to a static `ReferenceError`. Only the classification is
needed by the checker (`builtins::Function::Returning(_)` / `Void(_)`). -/
inductive BuiltinFunction where
  | returning
  | void
  deriving DecidableEq

/-- Modelled from the spec: `builtins::get_builtin_from_name`, a minimal
registry with a void `println` and a value-returning `len` (§2 "a minimal
builtin registry"). -/
def get_builtin_from_name : String → Option BuiltinFunction
  | "println" => some .void
  | "len" => some .returning
  | _ => none

/-- Result of a checker function: `ok` is the Rust return value, `panicked`
models a Rust panic (a failed `unwrap` / unreachable branch), and `fuelOut`
is exhaustion of the structural fuel (never hit at sufficient fuel). -/
inductive TRes (α : Type) where
  | ok (a : α)
  | panicked
  | fuelOut
  deriving DecidableEq

/-- `TRes` bind: propagate `panicked` and `fuelOut`. -/
def TRes.bind {α β : Type} : TRes α → (α → TRes β) → TRes β
  | .ok a, k => k a
  | .panicked, _ => .panicked
  | .fuelOut, _ => .fuelOut

/-- The checked type a statement gives an initializer / RHS: on a failed
subexpression the issues are collected and the type falls back to `Any`; a
void (`None`) result from a direct `FunctionCall` adds a `NoneError`
(`typechecker.rs` `check_statement`, `VariableDeclaration` / `Assignment`). -/
def checkedTypeOf (expr : ast.ExprNode)
    (r : Except (List TypeCheckerIssueWithPosition) (Option Ty)) :
    List TypeCheckerIssueWithPosition × Ty :=
  match r with
  | .ok possibleType =>
    match possibleType with
    | none =>
      match expr with
      | .functionCall _ id _ =>
        ([(.interpreterError (.noneError id), expr.pos)], .any)
      | _ => ([], .any)
    | some t => ([], t)
  | .error e => (e, .any)

/-- The merge loop of `check_statement`'s `IfThenElse` arm
(`for name in then_env.get_all_keys()`): for each name visible in the THEN
copy, the unwrapped lookups read both copies (panic if absent from either);
a disagreement emits one `MultipleTypesFromBranchWarning` at the statement's
position and forces `Any` into the parent environment via `set`, agreement
writes the agreed type back via `set`. -/
def merge_loop (pos : SpanPos) (then_env else_env : TypeEnvironment) :
    List String → TypeEnvironment → List TypeCheckerIssueWithPosition →
    TRes (List TypeCheckerIssueWithPosition × TypeEnvironment)
  | [], env, issues => .ok (issues, env)
  | name :: rest, env, issues =>
    match then_env.get_type name with
    | none => .panicked
    | some then_type =>
      match else_env.get_type name with
      | none => .panicked
      | some else_type =>
        if else_type ≠ then_type then
          merge_loop pos then_env else_env rest ((env.set name .any).2)
            (issues ++ [((.multipleTypesFromBranchWarning name : TypeCheckerIssue), pos)])
        else
          merge_loop pos then_env else_env rest ((env.set name then_type).2) issues

/-- `typechecker.rs` `check_unary_minus_for_type`. -/
def check_unary_minus_for_type (typ : Ty) : Except TypeCheckerIssue Ty :=
  match typ with
  | .number => .ok .number
  | .any => .ok .any
  | _ => .error (.interpreterError (.unaryTypeError .minus typ))

/-- `typechecker.rs` `check_binary_arithmetic_for_types`. -/
def check_binary_arithmetic_for_types (op : ast.BinaryOp) (t1 t2 : Ty) :
    Except TypeCheckerIssue Ty :=
  match t1, t2 with
  | .number, .number => .ok .number
  | .any, _ => .ok .any
  | _, .any => .ok .any
  | _, _ => .error (.interpreterError (.binaryTypeError op t1 t2))

/-- `typechecker.rs` `check_binary_comparison_for_types`. -/
def check_binary_comparison_for_types (op : ast.BinaryOp) (t1 t2 : Ty) :
    Except TypeCheckerIssue Ty :=
  match t1, t2 with
  | .number, .number => .ok .bool
  | .any, _ => .ok .any
  | _, .any => .ok .any
  | _, _ => .error (.interpreterError (.binaryTypeError op t1 t2))

mutual

/-- `typechecker.rs` `check_expr`, structural on fuel. Positions follow the
source exactly, including the quirk that the unary arms shadow `expr` and so
report at the operand's position. -/
def check_expr : Nat → ast.ExprNode → TypeEnvironment →
    TRes (Except (List TypeCheckerIssueWithPosition) (Option Ty))
  | 0, _, _ => .fuelOut
  | f + 1, expr, env =>
    match expr with
    | .literal _ x => .ok (.ok (some (Ty.fromLiteral x)))
    | .identifier pos id =>
      match env.get_type id with
      | some t => .ok (.ok (some t))
      | none => .ok (.error [(.interpreterError (.referenceError id), pos)])
    | .unaryExpression _ op sub =>
      (check_expr f sub env).bind fun r =>
        match r with
        | .error e => .ok (.error e)
        | .ok possibleType =>
          match possibleType with
          | none =>
            match sub with
            | .functionCall _ id _ =>
              .ok (.error [(.interpreterError (.noneError id), sub.pos)])
            | _ => .panicked
          | some t =>
            match op with
            | .minus =>
              match check_unary_minus_for_type t with
              | .ok t' => .ok (.ok (some t'))
              | .error e => .ok (.error [(e, sub.pos)])
    | .unaryLogicalExpression _ op sub =>
      (check_expr f sub env).bind fun r =>
        match r with
        | .error e => .ok (.error e)
        | .ok possibleType =>
          match possibleType, sub with
          | none, .functionCall _ id _ =>
            .ok (.error [(.interpreterError (.noneError id), sub.pos)])
          | _, _ =>
            match op with
            | .notOp => .ok (.ok (some .bool))
    | .binaryExpression pos e1 op e2 =>
      (check_expr f e1 env).bind fun r1 =>
        (check_expr f e2 env).bind fun r2 =>
          let (iss1, t1) := checkedTypeOf e1 r1
          let (iss2, t2) := checkedTypeOf e2 r2
          let issues := iss1 ++ iss2
          let result :=
            match op with
            | .add | .sub | .mul | .div | .floorDiv =>
              check_binary_arithmetic_for_types op t1 t2
            | .lessThan | .lessThanOrEqual | .greaterThan | .greaterThanOrEqual =>
              check_binary_comparison_for_types op t1 t2
            | .strictEquals => .ok .bool
          match result with
          | .error e => .ok (.error (issues ++ [(e, pos)]))
          | .ok t =>
            if issues = [] then .ok (.ok (some t)) else .ok (.error issues)
    | .binaryLogicalExpression _ e1 _ e2 =>
      (check_expr f e1 env).bind fun r1 =>
        (check_expr f e2 env).bind fun r2 =>
          let iss1 :=
            match r1 with
            | .error e => e
            | .ok none =>
              match e1 with
              | .functionCall _ id _ =>
                [((.interpreterError (.noneError id) : TypeCheckerIssue), e1.pos)]
              | _ => []
            | .ok (some _) => []
          let iss2 :=
            match r2 with
            | .error e => e
            | .ok none =>
              match e2 with
              | .functionCall _ id _ =>
                [((.interpreterError (.noneError id) : TypeCheckerIssue), e2.pos)]
              | _ => []
            | .ok (some _) => []
          let issues := iss1 ++ iss2
          if issues = [] then .ok (.ok (some .bool)) else .ok (.error issues)
    | .functionCall pos id args =>
      match get_builtin_from_name id with
      | none => .ok (.error [(.interpreterError (.referenceError id), pos)])
      | some wrapped_func =>
        (check_call_args f args env).bind fun issues =>
          if issues = [] then
            match wrapped_func with
            | .returning => .ok (.ok (some .any))
            | .void => .ok (.ok none)
          else .ok (.error issues)
termination_by structural f _ _ => f

/-- The argument loop of `check_expr`'s `FunctionCall` arm: collect every
argument's issues; a void argument that is itself a direct call adds a
`NoneError` at the argument's position. -/
def check_call_args : Nat → List ast.ExprNode → TypeEnvironment →
    TRes (List TypeCheckerIssueWithPosition)
  | 0, _, _ => .fuelOut
  | _ + 1, [], _ => .ok []
  | f + 1, arg :: rest, env =>
    (check_expr f arg env).bind fun r =>
      let here :=
        match r with
        | .error e => e
        | .ok none =>
          match arg with
          | .functionCall _ id _ =>
            [((.interpreterError (.noneError id) : TypeCheckerIssue), arg.pos)]
          | _ => []
        | .ok (some _) => []
      (check_call_args f rest env).bind fun restIssues =>
        .ok (here ++ restIssues)
termination_by structural f _ _ => f

end


/-- Outcome of checking an `IfThen`/`IfThenElse` condition: `inl` is the
early `return Err(vec![NoneError])` taken when the condition checks to a
void value and is a direct builtin call; `inr` carries the issues to
prepend (the condition's own errors, or nothing). -/
def if_cond_early (c : ast.ExprNode)
    (r : Except (List TypeCheckerIssueWithPosition) (Option Ty)) :
    Sum (List TypeCheckerIssueWithPosition) (List TypeCheckerIssueWithPosition) :=
  match r with
  | .ok none =>
    match c with
    | .functionCall _ id _ => .inl [(.interpreterError (.noneError id), c.pos)]
    | _ => .inr []
  | .ok (some _) => .inr []
  | .error conderrs => .inr conderrs

mutual

/-- `typechecker.rs` `check_statement`, in collected form: the Rust function
pushes issues into a local `Vec` and finally returns `Ok(())` on an empty
vector and `Err(issues)` otherwise; this function returns the collected
issue list together with the updated environment (the `check_statement`
wrapper below restores the `Result` shape). -/
def check_statement_c : Nat → ast.StatementNode → TypeEnvironment →
    TRes (List TypeCheckerIssueWithPosition × TypeEnvironment)
  | 0, _, _ => .fuelOut
  | f + 1, s, env =>
    match s with
    | .variableDeclaration _ v e =>
      (check_expr f e env).bind fun r =>
        let (iss, checked_type) := checkedTypeOf e r
        match env.declare v checked_type with
        | none => .panicked
        | some env' => .ok (iss, env')
    | .assignment _ lhs e =>
      (check_expr f e env).bind fun r =>
        let (iss, checked_type) := checkedTypeOf e r
        match lhs.data with
        | .identifier id =>
          let (found, env') := env.set id checked_type
          if found then .ok (iss, env')
          else
            .ok (iss ++ [((.interpreterError (.undeclaredAssignment id) : TypeCheckerIssue),
                          lhs.pos)],
                 env')
    | .block _ ss =>
      (check_statements_c f ss env.start_scope).bind fun (iss, env') =>
        .ok (iss, env'.end_scope)
    | .expression _ e =>
      (check_expr f e env).bind fun r =>
        match r with
        | .error e' => .ok (e', env)
        | .ok _ => .ok ([], env)
    | .ifThen _ c thenBlock =>
      (check_expr f c env).bind fun r =>
        match if_cond_early c r with
        | .inl early => .ok (early, env)
        | .inr condIssues =>
          (check_statement_c f thenBlock env).bind fun (iss, env') =>
            .ok (condIssues ++ iss, env')
    | .ifThenElse pos c thenBlock elseBlock =>
      let then_env := env
      let else_env := env
      (check_expr f c env).bind fun r =>
        match if_cond_early c r with
        | .inl early => .ok (early, env)
        | .inr condIssues =>
          (check_statement_c f thenBlock then_env).bind fun (iss1, e1) =>
            (check_statement_c f elseBlock else_env).bind fun (iss2, e2) =>
              (merge_loop pos e1 e2 e1.get_all_keys env []).bind fun (missues, env') =>
                .ok (condIssues ++ iss1 ++ iss2 ++ missues, env')
    | .loop _ b =>
      (check_statement_c f b env).bind fun (iss, env') => .ok (iss, env')
    | .breakStmt _ => .ok ([], env)
    | .empty _ => .ok ([], env)
termination_by structural f _ _ => f

/-- `typechecker.rs` `check_statements`, in collected form: every statement
is checked in order and its issues appended — a failing statement never
stops the walk. -/
def check_statements_c : Nat → List ast.StatementNode → TypeEnvironment →
    TRes (List TypeCheckerIssueWithPosition × TypeEnvironment)
  | 0, _, _ => .fuelOut
  | _ + 1, [], env => .ok ([], env)
  | f + 1, s :: rest, env =>
    (check_statement_c f s env).bind fun (iss, env') =>
      (check_statements_c f rest env').bind fun (iss2, env'') =>
        .ok (iss ++ iss2, env'')
termination_by structural f _ _ => f

end

/-- `if issues.len() == 0 { Ok(()) } else { Err(issues) }`. -/
def issuesToResult (iss : List TypeCheckerIssueWithPosition) :
    Except (List TypeCheckerIssueWithPosition) Unit :=
  if iss = [] then .ok () else .error iss

/-- `typechecker.rs` `check_statement` (the `Result` it returns). -/
def check_statement (f : Nat) (s : ast.StatementNode) (env : TypeEnvironment) :
    TRes (Except (List TypeCheckerIssueWithPosition) Unit × TypeEnvironment) :=
  (check_statement_c f s env).bind fun (iss, env') => .ok (issuesToResult iss, env')

/-- `typechecker.rs` `check_statements` (the `Result` it returns). -/
def check_statements (f : Nat) (ss : List ast.StatementNode) (env : TypeEnvironment) :
    TRes (Except (List TypeCheckerIssueWithPosition) Unit × TypeEnvironment) :=
  (check_statements_c f ss env).bind fun (iss, env') => .ok (issuesToResult iss, env')

/-- `typechecker.rs` `check_program`: fresh environment, one root scope,
check all statements, pop the scope, return the accumulated result. -/
def check_program (f : Nat) (astProgram : List ast.StatementNode) :
    TRes (Except (List TypeCheckerIssueWithPosition) Unit) :=
  (check_statements_c f astProgram TypeEnvironment.new.start_scope).bind fun (iss, _) =>
    .ok (issuesToResult iss)

namespace rt

/-! The evaluator of `ast_walk_interpreter.rs` is written against a later
AST than the one in `ast.rs` (`Stmt`, `Expr::FnCall`, `Tuple`, `FnDef`,
`MemberByIdx`, `Return`); that AST and the modules `value.rs`,
`environment.rs`, `function.rs` and `runtime.rs` are absent from the source
tree.  The definitions in this namespace reconstruct the AST from the
patterns the interpreter matches and model the missing modules from the
spec (§3, §4.2, §4.3, §9). -/

/-- `UnOp` as matched by `interpret_expr` (`UnOp::Neg`). -/
inductive UnOp where
  | neg
  deriving DecidableEq

/-- `LogicalUnOp` as matched by `interpret_expr` (`LogicalUnOp::Not`). -/
inductive LogicalUnOp where
  | notOp
  deriving DecidableEq

/-- `BinOp` as matched by `interpret_expr` (no floor division there). -/
inductive BinOp where
  | add | sub | mul | div | lt | lte | gt | gte | eq
  deriving DecidableEq

/-- `LogicalBinOp` as matched by `interpret_expr`. -/
inductive LogicalBinOp where
  | and | or
  deriving DecidableEq

/-- A position-tagged literal (`Expr::Literal(ref x)` with `x.data`). -/
structure LiteralNode where
  pos : SpanPos
  data : ast.Literal
  deriving DecidableEq

/-- The `Variable` matched by `Stmt::VarDecl` (`Variable::Identifier(_, name)`). -/
inductive Variable where
  | identifier (bt : ast.BindingType) (id : String)
  deriving DecidableEq

/-- The position-tagged `LhsExpr` matched by `Stmt::Assign`. -/
structure LhsExprNode where
  pos : SpanPos
  data : ast.LhsExpr
  deriving DecidableEq

/-- Modelled from the spec: `typechecker::ConstraintType` of the
interpreter's version — a per-parameter type constraint (§3 `CallSign`),
carried by `FnDef` and `CallSign` but never consulted by the evaluator. -/
inductive ConstraintType where
  | mk
  deriving DecidableEq

/-- Modelled from the spec: `CallSign` (§3) — arity, variadic flag,
per-parameter optional type constraint. -/
structure CallSign where
  num_params : Nat
  variadic : Bool
  param_types : List (Option ConstraintType)
  deriving DecidableEq

mutual

/-- The interpreter-side `Expr`/`ExprNode`, flattened so that each
constructor carries the node's `pos` first (reconstructed from the patterns
of `interpret_expr`). -/
inductive ExprNode where
  | literal (pos : SpanPos) (x : LiteralNode)
  | identifier (pos : SpanPos) (id : String)
  | tuple (pos : SpanPos) (elems : List ExprNode)
  | unary (pos : SpanPos) (op : UnOp) (e : ExprNode)
  | unaryLogical (pos : SpanPos) (op : LogicalUnOp) (e : ExprNode)
  | binary (pos : SpanPos) (e1 : ExprNode) (op : BinOp) (e2 : ExprNode)
  | binaryLogical (pos : SpanPos) (e1 : ExprNode) (op : LogicalBinOp) (e2 : ExprNode)
  | memberByIdx (pos : SpanPos) (objectExpr indexExpr : ExprNode)
  | fnDef (pos : SpanPos) (maybeId : Option String)
      (params : List (String × Option ConstraintType))
      (body : StmtNode) (maybeRetType : Option ConstraintType)
  | fnCall (pos : SpanPos) (func : ExprNode) (args : List ExprNode)

/-- The interpreter-side `Stmt`/`StmtNode`, flattened (reconstructed from
the patterns of `interpret_statement`; `IfThenStmt` inlined). -/
inductive StmtNode where
  | varDecl (pos : SpanPos) (v : Variable) (e : ExprNode)
  | assign (pos : SpanPos) (lhs : LhsExprNode) (e : ExprNode)
  | block (pos : SpanPos) (ss : List StmtNode)
  | expr (pos : SpanPos) (e : ExprNode)
  | ifThen (pos : SpanPos) (cond : ExprNode) (thenBlock : StmtNode)
      (maybeElseBlock : Option StmtNode)
  | loop (pos : SpanPos) (b : StmtNode)
  | ret (pos : SpanPos) (e : Option ExprNode)
  | breakStmt (pos : SpanPos)
  | empty (pos : SpanPos)

end

/-- The `pos` field of an interpreter-side `ExprNode`. -/
def ExprNode.pos : ExprNode → SpanPos
  | .literal p _ => p
  | .identifier p _ => p
  | .tuple p _ => p
  | .unary p _ _ => p
  | .unaryLogical p _ _ => p
  | .binary p _ _ _ => p
  | .binaryLogical p _ _ _ => p
  | .memberByIdx p _ _ => p
  | .fnDef p _ _ _ _ => p
  | .fnCall p _ _ => p

/-- Modelled from the spec: the Number sub-kinds of `value.rs` (§4.2),
`f64` modelled as a rational; no claim depends on IEEE float behaviour. -/
inductive Number where
  | integer (n : Int)
  | float (q : Rat)
  deriving DecidableEq

/-- Modelled from the spec: a native void callback (§2 "minimal builtin
registry"); its behaviour is irrelevant to every claim. -/
inductive NativeVoidFn where
  | println
  deriving DecidableEq

/-- Modelled from the spec: a native value-returning callback. -/
inductive NativeReturningFn where
  | len
  deriving DecidableEq

mutual

/-- Modelled from the spec: `function.rs` `Function` (§3) — NativeVoid,
NativeReturning and User variants; the User variant captures the defining
environment by reference (here: an arena index). -/
inductive Function where
  | nativeVoid (call_sign : CallSign) (fn : NativeVoidFn)
  | nativeReturning (call_sign : CallSign) (fn : NativeReturningFn)
  | user (ret_type : Option ConstraintType) (call_sign : CallSign)
      (param_names : List String) (body : StmtNode) (env : Nat)

/-- Modelled from the spec: `value.rs` `Value` (§3) — Number, Bool, String,
Tuple, Function. -/
inductive Value where
  | number (n : Number)
  | bool (b : Bool)
  | string (s : String)
  | tuple (vs : List Value)
  | function (f : Function)

end

/-- Modelled from the spec: the runtime type tags carried by runtime errors
(`Value::get_type`). -/
inductive VType where
  | number | bool | string | tuple | function
  deriving DecidableEq

/-- `Value::get_type`. -/
def Value.get_type : Value → VType
  | .number _ => .number
  | .bool _ => .bool
  | .string _ => .string
  | .tuple _ => .tuple
  | .function _ => .function

/-- Modelled from the spec: truthiness (`Value::is_truthy`).  §9 records
the rule for non-Bool values as an open question; we model Bool as its own
truth value and every other value as truthy.  Every claim exercises only
the Bool case. -/
def Value.is_truthy : Value → Bool
  | .bool b => b
  | _ => true

/-- `Value::from(Literal)`. -/
def Value.fromLiteral : ast.Literal → Value
  | .integer n => .number (.integer n)
  | .float q => .number (.float q)
  | .bool b => .bool b

/-- Numeric view of a `Number` for mixed-mode arithmetic. -/
def Number.toRat : Number → Rat
  | .integer n => (n : Rat)
  | .float q => q

/-- Modelled from the spec: `Number` negation. -/
def Number.neg : Number → Number
  | .integer n => .integer (-n)
  | .float q => .float (-q)

/-- Modelled from the spec: `Number` addition with Integer⊕Float → Float
promotion (§4.2). -/
def Number.add : Number → Number → Number
  | .integer a, .integer b => .integer (a + b)
  | a, b => .float (a.toRat + b.toRat)

/-- Modelled from the spec: `Number` subtraction with mixed-mode promotion. -/
def Number.sub : Number → Number → Number
  | .integer a, .integer b => .integer (a - b)
  | a, b => .float (a.toRat - b.toRat)

/-- Modelled from the spec: `Number` multiplication with mixed-mode promotion. -/
def Number.mul : Number → Number → Number
  | .integer a, .integer b => .integer (a * b)
  | a, b => .float (a.toRat * b.toRat)

/-- Modelled from the spec: `Number` division with mixed-mode promotion.
Integer division truncates toward zero as Rust's `i64` division does; the
division-by-zero panic of Rust is not modelled (no claim divides). -/
def Number.div : Number → Number → Number
  | .integer a, .integer b => .integer (Int.tdiv a b)
  | a, b => .float (a.toRat / b.toRat)

/-- Modelled from the spec: `Number::floor_div`, the dedicated
floor-division operator (§4.2). -/
def Number.floor_div : Number → Number → Number
  | .integer a, .integer b => .integer (Int.fdiv a b)
  | a, b => .float ((⌊a.toRat / b.toRat⌋ : Int) : Rat)

/-- Modelled from the spec: numeric comparison (mixed kinds compare by
numeric value). -/
def Number.lt (a b : Number) : Bool := a.toRat < b.toRat

/-- Modelled from the spec: numeric comparison. -/
def Number.lte (a b : Number) : Bool := a.toRat ≤ b.toRat

/-- Modelled from the spec: numeric comparison. -/
def Number.gt (a b : Number) : Bool := b.toRat < a.toRat

/-- Modelled from the spec: numeric comparison. -/
def Number.gte (a b : Number) : Bool := b.toRat ≤ a.toRat

/-- Modelled from the spec: `Display` for `Number` — decimal for integers;
the float rendering is a placeholder (only integers are stringified by any
claim). -/
def Number.to_string : Number → String
  | .integer n => toString n
  | .float q => toString q.num ++ "/" ++ toString q.den

mutual

/-- Modelled from the spec: structural equality on values (§3 "Equality is
structural", §4.2 "cross-type = false, never an error").  Function values
compare unequal; no claim compares functions. -/
def Value.beq : Value → Value → Bool
  | .number a, .number b => a == b
  | .bool a, .bool b => a == b
  | .string a, .string b => a == b
  | .tuple a, .tuple b => Value.beqList a b
  | _, _ => false

/-- Element-wise structural equality of tuples. -/
def Value.beqList : List Value → List Value → Bool
  | [], [] => true
  | a :: as_, b :: bs => Value.beq a b && Value.beqList as_ bs
  | _, _ => false

end

mutual

/-- Modelled from the spec: `Display` for `Value` — the text a non-string
operand is converted to by `+` coercion (§4.2); claims stringify only
integers. -/
def Value.to_string : Value → String
  | .number n => n.to_string
  | .bool b => if b then "true" else "false"
  | .string s => s
  | .tuple vs => "(" ++ Value.listToString vs ++ ")"
  | .function _ => "<function>"

/-- Comma-separated rendering of tuple elements. -/
def Value.listToString : List Value → String
  | [] => ""
  | [v] => v.to_string
  | v :: rest => v.to_string ++ ", " ++ Value.listToString rest

end

/-- `Function::get_call_sign`. -/
def Function.get_call_sign : Function → CallSign
  | .nativeVoid cs _ => cs
  | .nativeReturning cs _ => cs
  | .user _ cs _ _ _ => cs

end rt

namespace rt

/-- Modelled from the spec: `runtime.rs` `StmtResult` (§3) — the control
signal from executing a statement. -/
inductive StmtResult where
  | none
  | value (v : Value)
  | breakSignal
  | ret (v : Option Value)

/-- Modelled from the spec: `runtime.rs` `RuntimeError` (§4.3 error kinds).
`InsideFunctionCall`'s boxed (error, position) pair is flattened into two
arguments.  Operator errors carry `ast.rs`'s `BinaryOp`/`UnaryOp`, exactly
as `operations.rs` imports them. -/
inductive RuntimeError where
  | referenceError (id : String)
  | undeclaredAssignment (id : String)
  | noneError (id : Option String)
  | indexOutOfBounds (i : Int)
  | nonIntegralSubscript (t : VType)
  | subscriptOnNonSubscriptable (t : VType)
  | callToNonFunction (id : Option String) (t : VType)
  | argumentLength (id : Option String)
  | unaryTypeError (op : ast.UnaryOp) (t : VType)
  | binaryTypeError (op : ast.BinaryOp) (t1 t2 : VType)
  | insideFunctionCall (e : RuntimeError) (p : SpanPos)

end rt

namespace operations

open rt

/-- `operations.rs` `unary_minus`. -/
def unary_minus (a : Value) : Except RuntimeError Value :=
  match a with
  | .number x => .ok (.number x.neg)
  | x => .error (.unaryTypeError .minus x.get_type)

/-- `operations.rs` `add`: Number+Number, Tuple+Tuple concatenation,
String+String, String+anything / anything+String with the non-string side
converted to text, `BinaryTypeError` otherwise. -/
def add (a b : Value) : Except RuntimeError Value :=
  match a, b with
  | .number a, .number b => .ok (.number (a.add b))
  | .tuple a, .tuple b => .ok (.tuple (a ++ b))
  | .string sa, .string sb => .ok (.string (sa ++ sb))
  | .string s, other => .ok (.string (s ++ other.to_string))
  | other, .string s => .ok (.string (other.to_string ++ s))
  | a, b => .error (.binaryTypeError .add a.get_type b.get_type)

/-- `operations.rs` `subtract`. -/
def subtract (a b : Value) : Except RuntimeError Value :=
  match a, b with
  | .number a, .number b => .ok (.number (a.sub b))
  | a, b => .error (.binaryTypeError .sub a.get_type b.get_type)

/-- `operations.rs` `multiply`. -/
def multiply (a b : Value) : Except RuntimeError Value :=
  match a, b with
  | .number a, .number b => .ok (.number (a.mul b))
  | a, b => .error (.binaryTypeError .mul a.get_type b.get_type)

/-- `operations.rs` `divide`. -/
def divide (a b : Value) : Except RuntimeError Value :=
  match a, b with
  | .number a, .number b => .ok (.number (a.div b))
  | a, b => .error (.binaryTypeError .div a.get_type b.get_type)

/-- `operations.rs` `floor_divide`. -/
def floor_divide (a b : Value) : Except RuntimeError Value :=
  match a, b with
  | .number a, .number b => .ok (.number (a.floor_div b))
  | a, b => .error (.binaryTypeError .floorDiv a.get_type b.get_type)

/-- `operations.rs` `less_than`. -/
def less_than (a b : Value) : Except RuntimeError Value :=
  match a, b with
  | .number a, .number b => .ok (.bool (a.lt b))
  | a, b => .error (.binaryTypeError .lessThan a.get_type b.get_type)

/-- `operations.rs` `less_than_or_equal`. -/
def less_than_or_equal (a b : Value) : Except RuntimeError Value :=
  match a, b with
  | .number a, .number b => .ok (.bool (a.lte b))
  | a, b => .error (.binaryTypeError .lessThanOrEqual a.get_type b.get_type)

/-- `operations.rs` `greater_than`. -/
def greater_than (a b : Value) : Except RuntimeError Value :=
  match a, b with
  | .number a, .number b => .ok (.bool (a.gt b))
  | a, b => .error (.binaryTypeError .greaterThan a.get_type b.get_type)

/-- `operations.rs` `greater_than_or_equal`. -/
def greater_than_or_equal (a b : Value) : Except RuntimeError Value :=
  match a, b with
  | .number a, .number b => .ok (.bool (a.gte b))
  | a, b => .error (.binaryTypeError .greaterThanOrEqual a.get_type b.get_type)

end operations

namespace rt

/-- Modelled from the spec: one scope record of `environment.rs` — a
binding table plus an optional parent link (§3, §9's arena representation).
The table is an association list whose insert overwrites. -/
structure Scope where
  table : List (String × Value)
  parent : Option Nat

/-- Modelled from the spec: the shared-ownership environment graph as an
arena of scope records addressed by index (§9); an `Environment` reference
is an index into `scopes`. -/
structure Arena where
  scopes : List Scope

/-- Insert/overwrite a binding in one table (`HashMap::insert`). -/
def tableInsert (t : List (String × Value)) (k : String) (v : Value) :
    List (String × Value) :=
  match t with
  | [] => [(k, v)]
  | (k', v') :: rest => if k' = k then (k, v) :: rest else (k', v') :: tableInsert rest k v

/-- Lookup in one table (`HashMap::get`). -/
def tableGet (t : List (String × Value)) (k : String) : Option Value :=
  match t with
  | [] => none
  | (k', v') :: rest => if k' = k then some v' else tableGet rest k

/-- `Environment::new_root()`: a fresh arena holding one empty, parentless
scope, referenced by index 0. -/
def Arena.new_root : Arena := ⟨[⟨[], none⟩]⟩

/-- `Environment::create_child(parent)`: allocate a new empty scope whose
parent is `parent`; returns the updated arena and the new reference. -/
def Arena.create_child (st : Arena) (parent : Nat) : Arena × Nat :=
  (⟨st.scopes ++ [⟨[], some parent⟩]⟩, st.scopes.length)

/-- `Environment::declare`: insert/overwrite in the referenced scope only. -/
def Arena.declare (st : Arena) (r : Nat) (name : String) (v : Value) : Arena :=
  match st.scopes.get? r with
  | Option.none => st
  | Option.some sc => ⟨st.scopes.set r ⟨tableInsert sc.table name v, sc.parent⟩⟩

/-- Walk the parent chain innermost→outermost looking for `name`; the fuel
bounds the chain length (`create_child` only ever creates parents with a
smaller index, so `scopes.length` fuel always suffices). -/
def Arena.getFrom (st : Arena) : Nat → Nat → String → Option Value
  | 0, _, _ => none
  | f + 1, r, name =>
    match st.scopes.get? r with
    | Option.none => none
    | Option.some sc =>
      match tableGet sc.table name with
      | Option.some v => some v
      | Option.none =>
        match sc.parent with
        | Option.none => none
        | Option.some p => st.getFrom f p name

/-- `Environment::get_value`: innermost→outermost lookup, first match wins. -/
def Arena.get_value (st : Arena) (r : Nat) (name : String) : Option Value :=
  st.getFrom st.scopes.length r name

/-- Walk the parent chain and mutate the first scope containing `name`;
returns whether a target was found. -/
def Arena.setFrom (st : Arena) : Nat → Nat → String → Value → Bool × Arena
  | 0, _, _, _ => (false, st)
  | f + 1, r, name, v =>
    match st.scopes.get? r with
    | Option.none => (false, st)
    | Option.some sc =>
      match tableGet sc.table name with
      | Option.some _ =>
        (true, ⟨st.scopes.set r ⟨tableInsert sc.table name v, sc.parent⟩⟩)
      | Option.none =>
        match sc.parent with
        | Option.none => (false, st)
        | Option.some p => st.setFrom f p name v

/-- `Environment::set`: innermost→outermost, mutate the first scope
containing `name`; `false` means no scope declares it. -/
def Arena.set (st : Arena) (r : Nat) (name : String) (v : Value) : Bool × Arena :=
  st.setFrom st.scopes.length r name v

/-- Length of the parent chain starting at `r` (the scope depth of an
environment reference). -/
def Arena.depthFrom (st : Arena) : Nat → Nat → Nat
  | 0, _ => 0
  | f + 1, r =>
    match st.scopes.get? r with
    | Option.none => 0
    | Option.some sc =>
      match sc.parent with
      | Option.none => 1
      | Option.some p => st.depthFrom f p + 1

/-- The scope depth of environment reference `r`: 1 for the root, one more
for each `create_child`. -/
def Arena.depth (st : Arena) (r : Nat) : Nat :=
  st.depthFrom st.scopes.length r

end rt

namespace rt

/-- Result of an evaluator function: `ok` carries the Rust return value and
the updated environment arena, `err` a positioned runtime error (fail-fast
propagation of `?`), `panicked` models a Rust panic (`unreachable!`), and
`timeout` is exhaustion of the structural fuel (true divergence or simply
insufficient fuel). -/
inductive RRes (α : Type) where
  | ok (a : α) (st : Arena)
  | err (e : RuntimeError) (p : SpanPos)
  | panicked
  | timeout

/-- `RRes` bind, threading the arena and propagating `err`/`panicked`/
`timeout` — the analogue of Rust's `?`. -/
def RRes.bind {α β : Type} : RRes α → (α → Arena → RRes β) → RRes β
  | .ok a st, k => k a st
  | .err e p, _ => .err e p
  | .panicked, _ => .panicked
  | .timeout, _ => .timeout

/-- Result of `call_func`, whose Rust signature returns errors WITHOUT a
position (`Result<Option<Value>, RuntimeError>`); the caller attaches the
call expression's position. -/
inductive CRes (α : Type) where
  | ok (a : α) (st : Arena)
  | err (e : RuntimeError)
  | panicked
  | timeout

/-- Modelled from the spec: invoking a native void callback; `println`'s
printing is outside the model and always succeeds. -/
def apply_native_void (fn : NativeVoidFn) (_args : List Value) :
    Except RuntimeError Unit :=
  match fn with
  | .println => .ok ()

/-- Modelled from the spec: invoking a native returning callback; `len`
returns the length of its tuple argument. -/
def apply_native_returning (fn : NativeReturningFn) (args : List Value) :
    Except RuntimeError Value :=
  match fn with
  | .len =>
    match args with
    | [.tuple vs] => .ok (.number (.integer (vs.length : Int)))
    | _ => .error (.argumentLength none)

/-- The parameter-binding loop of `call_func`'s User arm:
`for (param, arg) in param_names.iter().zip(arg_vals.iter()) { declare }`. -/
def declare_params (st : Arena) (r : Nat) : List (String × Value) → Arena
  | [] => st
  | (param, arg) :: rest => declare_params (st.declare r param arg) r rest

/-- `ast_walk_interpreter.rs` `check_args_compat`: reject a non-variadic
call whose argument count differs from the signature's arity.  As called by
`interpret_expr`, `expr` is the WHOLE call node (`e`), so the
`Expr::Identifier` branch that would name the callee can never fire. -/
def check_args_compat (arg_vals : List Value) (call_sign : CallSign)
    (expr : ExprNode) : Except (RuntimeError × SpanPos) Unit :=
  if !call_sign.variadic && call_sign.num_params ≠ arg_vals.length then
    match expr with
    | .identifier pos id => .error (.argumentLength (some id), pos)
    | _ => .error (.argumentLength none, expr.pos)
  else .ok ()

mutual

/-- `ast_walk_interpreter.rs` `interpret_statement`, structural on fuel. -/
def interpret_statement : Nat → StmtNode → Nat → Arena → RRes StmtResult
  | 0, _, _, _ => .timeout
  | f + 1, s, env, st =>
    match s with
    | .varDecl _ v e =>
      (interpret_expr_as_value f e env st).bind fun val st1 =>
        match v with
        | .identifier _ name => .ok .none (st1.declare env name val)
    | .assign _ lhs e =>
      (interpret_expr_as_value f e env st).bind fun val st1 =>
        match lhs.data with
        | .identifier id =>
          let (found, st2) := st1.set env id val
          if found then .ok .none st2
          else .err (.undeclaredAssignment id) lhs.pos
    | .block _ statements =>
      let (st', child_env) := st.create_child env
      interpret_block f statements child_env st' .none
    | .expr _ e =>
      (interpret_expr f e env st).bind fun val st1 =>
        match val with
        | Option.none => .ok .none st1
        | Option.some x => .ok (.value x) st1
    | .ifThen _ cond thenBlock maybeElseBlock =>
      (interpret_expr_as_value f cond env st).bind fun val st1 =>
        if val.is_truthy then
          (interpret_statement f thenBlock env st1).bind fun result st2 =>
            match result with
            | .breakSignal => .ok .breakSignal st2
            | .ret v => .ok (.ret v) st2
            | _ => .ok .none st2
        else
          match maybeElseBlock with
          | Option.some elseBlock =>
            (interpret_statement f elseBlock env st1).bind fun result st2 =>
              match result with
              | .breakSignal => .ok .breakSignal st2
              | .ret v => .ok (.ret v) st2
              | _ => .ok .none st2
          | Option.none => .ok .none st1
    | .loop _ b =>
      let (st', child_env) := st.create_child env
      interpret_loop f b child_env st'
    | .ret _ possibleExpr =>
      match possibleExpr with
      | Option.some e =>
        (interpret_expr_as_value f e env st).bind fun val st1 =>
          .ok (.ret (some val)) st1
      | Option.none => .ok (.ret none) st
    | .breakStmt _ => .ok .breakSignal st
    | .empty _ => .ok .none st
termination_by structural f _ _ _ => f

/-- The statement loop of `Stmt::Block`: run statements in order, a Break
or Return stops the block immediately and propagates, otherwise the block's
result is the last statement's result (`None` for an empty block). -/
def interpret_block : Nat → List StmtNode → Nat → Arena → StmtResult →
    RRes StmtResult
  | 0, _, _, _, _ => .timeout
  | _ + 1, [], _, st, last_result => .ok last_result st
  | f + 1, s :: rest, env, st, _ =>
    (interpret_statement f s env st).bind fun result st1 =>
      match result with
      | .breakSignal => .ok .breakSignal st1
      | .ret v => .ok (.ret v) st1
      | r => interpret_block f rest env st1 r
termination_by structural f _ _ _ _ => f

/-- The `loop { }` of `Stmt::Loop`: repeat the body in the single child
scope; Break ends the loop with result None, Return propagates. -/
def interpret_loop : Nat → StmtNode → Nat → Arena → RRes StmtResult
  | 0, _, _, _ => .timeout
  | f + 1, b, env, st =>
    (interpret_statement f b env st).bind fun result st1 =>
      match result with
      | .breakSignal => .ok .none st1
      | .ret v => .ok (.ret v) st1
      | _ => interpret_loop f b env st1
termination_by structural f _ _ _ => f

/-- `ast_walk_interpreter.rs` `interpret_expr_as_value`: reject a void
result; a void direct call yields `NoneError` naming the callee when the
callee expression is an identifier; a void result from any other expression
hits `unreachable!()`. -/
def interpret_expr_as_value : Nat → ExprNode → Nat → Arena → RRes Value
  | 0, _, _, _ => .timeout
  | f + 1, expr, env, st =>
    (interpret_expr f expr env st).bind fun possible_val st1 =>
      match possible_val with
      | Option.some v => .ok v st1
      | Option.none =>
        match expr with
        | .fnCall _ f_expr _ =>
          match f_expr with
          | .identifier _ id => .err (.noneError (some id)) expr.pos
          | _ => .err (.noneError none) expr.pos
        | _ => .panicked
termination_by structural f _ _ _ => f

/-- The left-to-right, value-required evaluation of a list of expressions —
the element loop of `Expr::Tuple` and the argument loop of `Expr::FnCall`
(two textually identical loops in the source). -/
def interpret_exprs_as_values : Nat → List ExprNode → Nat → Arena →
    RRes (List Value)
  | 0, _, _, _ => .timeout
  | _ + 1, [], _, st => .ok [] st
  | f + 1, e :: rest, env, st =>
    (interpret_expr_as_value f e env st).bind fun val st1 =>
      (interpret_exprs_as_values f rest env st1).bind fun vals st2 =>
        .ok (val :: vals) st2
termination_by structural f _ _ _ => f

/-- `ast_walk_interpreter.rs` `interpret_expr`, structural on fuel. -/
def interpret_expr : Nat → ExprNode → Nat → Arena → RRes (Option Value)
  | 0, _, _, _ => .timeout
  | f + 1, e, env, st =>
    match e with
    | .literal _ x => .ok (some (Value.fromLiteral x.data)) st
    | .identifier pos id =>
      match st.get_value env id with
      | Option.some v => .ok (some v) st
      | Option.none => .err (.referenceError id) pos
    | .tuple _ elems =>
      (interpret_exprs_as_values f elems env st).bind fun values st1 =>
        .ok (some (.tuple values)) st1
    | .unary pos op sub =>
      (interpret_expr_as_value f sub env st).bind fun val st1 =>
        match op with
        | .neg =>
          match operations.unary_minus val with
          | .ok v => .ok (some v) st1
          | .error err => .err err pos
    | .unaryLogical _ op sub =>
      (interpret_expr_as_value f sub env st).bind fun val st1 =>
        match op with
        | .notOp => .ok (some (.bool (!val.is_truthy))) st1
    | .binary pos e1 op e2 =>
      (interpret_expr_as_value f e1 env st).bind fun val1 st1 =>
        (interpret_expr_as_value f e2 env st1).bind fun val2 st2 =>
          let retval :=
            match op with
            | .add => operations.add val1 val2
            | .sub => operations.subtract val1 val2
            | .mul => operations.multiply val1 val2
            | .div => operations.divide val1 val2
            | .lt => operations.less_than val1 val2
            | .lte => operations.less_than_or_equal val1 val2
            | .gt => operations.greater_than val1 val2
            | .gte => operations.greater_than_or_equal val1 val2
            | .eq => .ok (.bool (val1.beq val2))
          match retval with
          | .ok v => .ok (some v) st2
          | .error err => .err err pos
    | .binaryLogical _ e1 op e2 =>
      match op with
      | .and =>
        (interpret_expr_as_value f e1 env st).bind fun val1 st1 =>
          if !val1.is_truthy then .ok (some (.bool false)) st1
          else
            (interpret_expr_as_value f e2 env st1).bind fun val2 st2 =>
              .ok (some (.bool val2.is_truthy)) st2
      | .or =>
        (interpret_expr_as_value f e1 env st).bind fun val1 st1 =>
          if val1.is_truthy then .ok (some (.bool true)) st1
          else
            (interpret_expr_as_value f e2 env st1).bind fun val2 st2 =>
              .ok (some (.bool val2.is_truthy)) st2
    | .memberByIdx pos object_expr index_expr =>
      (interpret_expr_as_value f object_expr env st).bind fun object st1 =>
        (interpret_expr_as_value f index_expr env st1).bind fun index st2 =>
          match object with
          | .tuple v =>
            match index with
            | .number (.integer i) =>
              if i < 0 then .err (.indexOutOfBounds i) pos
              else
                match v.get? i.toNat with
                | Option.some x => .ok (some x) st2
                | Option.none => .err (.indexOutOfBounds i) pos
            | non_int_index =>
              .err (.nonIntegralSubscript non_int_index.get_type) index_expr.pos
          | obj => .err (.subscriptOnNonSubscriptable obj.get_type) object_expr.pos
    | .fnDef _ maybe_id params body maybe_ret_type =>
      let param_names := params.map Prod.fst
      let param_types := params.map Prod.snd
      let func : Function := .user maybe_ret_type
        ⟨params.length, false, param_types⟩ param_names body env
      let func_val : Value := .function func
      match maybe_id with
      | Option.some id => .ok (some func_val) (st.declare env id func_val)
      | Option.none => .ok (some func_val) st
    | .fnCall pos f_expr args =>
      (interpret_expr_as_value f f_expr env st).bind fun val st1 =>
        match val with
        | .function func =>
          (interpret_exprs_as_values f args env st1).bind fun arg_vals st2 =>
            let call_sign := func.get_call_sign
            match check_args_compat arg_vals call_sign e with
            | .error (err, p) => .err err p
            | .ok () =>
              match call_func f func arg_vals st2 with
              | .ok possible_val st3 => .ok possible_val st3
              | .err runtime_error => .err runtime_error pos
              | .panicked => .panicked
              | .timeout => .timeout
        | v =>
          match f_expr with
          | .identifier _ id =>
            .err (.callToNonFunction (some id) v.get_type) f_expr.pos
          | _ => .err (.callToNonFunction none v.get_type) f_expr.pos
termination_by structural f _ _ _ => f

/-- `ast_walk_interpreter.rs` `call_func`: dispatch on the function variant;
a User call builds a parameter scope as a child of the CAPTURED environment,
binds parameters by position, builds one further nested scope for the body,
and interprets `Return(v)` as the call result (void for every other
outcome); errors inside are wrapped in `InsideFunctionCall`. -/
def call_func : Nat → Function → List Value → Arena → CRes (Option Value)
  | 0, _, _, _ => .timeout
  | f + 1, func, arg_vals, st =>
    match func with
    | .nativeVoid _ native_fn =>
      match apply_native_void native_fn arg_vals with
      | .ok () => .ok none st
      | .error e => .err e
    | .nativeReturning _ native_fn =>
      match apply_native_returning native_fn arg_vals with
      | .ok v => .ok (some v) st
      | .error e => .err e
    | .user _ _ param_names body env =>
      let (st1, function_env) := st.create_child env
      let st2 := declare_params st1 function_env (param_names.zip arg_vals)
      let (st3, inner_env) := st2.create_child function_env
      match interpret_statement f body inner_env st3 with
      | .err error p => .err (.insideFunctionCall error p)
      | .ok statement_result st4 =>
        match statement_result with
        | .ret possible_val =>
          match possible_val with
          | Option.some val => .ok (some val) st4
          | Option.none => .ok none st4
        | _ => .ok none st4
      | .panicked => .panicked
      | .timeout => .timeout
termination_by structural f _ _ _ => f

end

/-- `ast_walk_interpreter.rs` `interpret_statements`: the program's result
is its last statement's `StmtResult` (`none` if the program is empty). -/
def interpret_statements : Nat → List StmtNode → Nat → Arena →
    RRes (Option StmtResult)
  | 0, _, _, _ => .timeout
  | _ + 1, [], _, st => .ok none st
  | f + 1, s :: rest, env, st =>
    (interpret_statement f s env st).bind fun result st1 =>
      match rest with
      | [] => .ok (some result) st1
      | _ => interpret_statements f rest env st1

end rt

/-- Number of `MultipleTypesFromBranchWarning`s for name `k` in an issue
list. -/
def warn_count (k : String) (l : List TypeCheckerIssueWithPosition) : Nat :=
  (l.filter fun ip => decide (ip.1 = TypeCheckerIssue.multipleTypesFromBranchWarning k)).length

/-- Two symbol tables contain exactly the same names. -/
def SymbolTable.sameKeys (t t' : SymbolTable) : Prop :=
  ∀ k, t.containsKey k = t'.containsKey k

/-- Every name of `t` is also a name of `t'`. -/
def SymbolTable.subKeys (t t' : SymbolTable) : Prop :=
  ∀ k, t.containsKey k = true → t'.containsKey k = true

/-- How checking a statement may change the scope stack's name sets: the
innermost scope may gain names (declarations), every outer scope keeps
exactly its names, and the stack length is unchanged. -/
def KeysRel : List SymbolTable → List SymbolTable → Prop
  | [], [] => True
  | t :: rest, t' :: rest' => t.subKeys t' ∧ List.Forall₂ SymbolTable.sameKeys rest rest'
  | _, _ => False

namespace rt

/-- A well-formed arena: every scope's parent was allocated before it, which
is the invariant `create_child` maintains and which makes parent chains
finite. -/
def Arena.wf (st : Arena) : Prop :=
  ∀ i sc, st.scopes.get? i = some sc → ∀ p, sc.parent = some p → p < i

end rt

/-! Concrete inputs for the closed theorems and witnesses.  Positions are
arbitrary but distinct so the theorems pin down which node an error is
reported at. -/

/-- Position (0,0). -/
def spanA : SpanPos := (0, 0)
/-- Position (1,1). -/
def spanB : SpanPos := (1, 1)
/-- Position (2,2). -/
def spanC : SpanPos := (2, 2)
/-- Position (3,3). -/
def spanD : SpanPos := (3, 3)

/-- A checker environment with one scope declaring `x : Number`. -/
def envX : TypeEnvironment := ⟨[[("x", Ty.number)]]⟩

/-- A checker environment with one empty scope (as `check_program` opens). -/
def envEmptyScope : TypeEnvironment := ⟨[[]]⟩

/-- `let y = 1` as a bare (non-block) statement. -/
def declYStmt : ast.StatementNode :=
  .variableDeclaration spanB (.identifier .mutableBinding "y") (.literal spanB (.integer 1))

/-- `if (true) { } else let y = 1;` — the else branch declares directly into
the else copy's outermost scope. -/
def ifElseDeclaresY : ast.StatementNode :=
  .ifThenElse spanA (.literal spanA (.bool true)) (.block spanC []) declYStmt

/-- `if (true) let x = 1; else { }` — the then branch declares directly into
the then copy's outermost scope. -/
def ifThenDeclaresX : ast.StatementNode :=
  .ifThenElse spanA (.literal spanA (.bool true))
    (.variableDeclaration spanB (.identifier .mutableBinding "x") (.literal spanB (.integer 1)))
    (.empty spanC)

/-- `if (println()) { undeclared; }` — a void builtin call as condition, a
then block containing a reachable static `ReferenceError`. -/
def ifThenVoidCond : ast.StatementNode :=
  .ifThen spanA (.functionCall spanB "println" [])
    (.block spanC [.expression spanC (.identifier spanD "undeclared")])

/-- The then block of `ifThenVoidCond` on its own. -/
def undeclaredBlock : ast.StatementNode :=
  .block spanC [.expression spanC (.identifier spanD "undeclared")]

/-- The spec's branch-merge example: `if (true) { x = true; } else { }`. -/
def ifAssignsXBool : ast.StatementNode :=
  .ifThenElse spanA (.literal spanA (.bool true))
    (.block spanB [.assignment spanB ⟨spanB, .identifier "x"⟩ (.literal spanB (.bool true))])
    (.block spanC [])

/-- `loop { break; }` on the checker's AST. -/
def loopBreakAst : ast.StatementNode := .loop spanA (.breakStmt spanB)

/-- `loop { break; }` on the evaluator's AST (the body is the bare Break
statement). -/
def loopBreakRt : rt.StmtNode := .loop spanA (.breakStmt spanB)

/-- The arena after evaluating `loop { break; }` from the root: the root
scope plus the loop's one child scope. -/
def loopFinalArena : rt.Arena := ⟨[⟨[], none⟩, ⟨[], some 0⟩]⟩

/-- `undefinedFn()` with `undefinedFn` never declared. -/
def undefinedCall : rt.ExprNode := .fnCall spanB (.identifier spanB "undefinedFn") []

/-- The literal `false`. -/
def falseLit : rt.ExprNode := .literal spanA ⟨spanA, .bool false⟩

/-- The literal `true`. -/
def trueLit : rt.ExprNode := .literal spanA ⟨spanA, .bool true⟩

/-- The tuple expression `(10, 20, 30)`. -/
def tuple102030 : rt.ExprNode :=
  .tuple spanA [.literal spanA ⟨spanA, .integer 10⟩,
                .literal spanA ⟨spanA, .integer 20⟩,
                .literal spanA ⟨spanA, .integer 30⟩]

/-- `fn f(a, b) { }` — a named 2-parameter function definition. -/
def fnDefF : rt.ExprNode :=
  .fnDef spanA (some "f") [("a", none), ("b", none)] (.block spanA []) none

/-- `f(1)` — calling the 2-parameter `f` through its identifier with one
argument. -/
def callFOneArg : rt.ExprNode :=
  .fnCall spanC (.identifier spanB "f") [.literal spanA ⟨spanA, .integer 1⟩]

/-- `f(1, 1)`. -/
def callFTwoArgs : rt.ExprNode :=
  .fnCall spanC (.identifier spanB "f")
    [.literal spanA ⟨spanA, .integer 1⟩, .literal spanA ⟨spanA, .integer 1⟩]

/-- `f(undeclaredArg)` — wrong arity AND an argument that fails to evaluate. -/
def callFBadArg : rt.ExprNode :=
  .fnCall spanC (.identifier spanB "f") [.identifier spanD "undeclaredArg"]

/-- The body `{ return 42; }`. -/
def returnFortyTwoBody : rt.StmtNode :=
  .block spanA [.ret spanB (some (.literal spanA ⟨spanA, .integer 42⟩))]

/-- A user function with body `{ return 42; }` capturing the root scope. -/
def fnReturnFortyTwo : rt.Function :=
  .user none ⟨0, false, []⟩ [] returnFortyTwoBody 0

/-- `(fn v() { })()` — an immediately invoked void user function. -/
def voidSelfCall : rt.ExprNode :=
  .fnCall spanC (.fnDef spanA (some "v") [] (.block spanB []) none) []

/-- The function value built by `fn v() { }` at the root scope. -/
def voidFnValue : rt.Value :=
  .function (.user none ⟨0, false, []⟩ [] (.block spanB []) 0)

/-- A root arena in which `v` is bound to the void user function. -/
def rootWithV : rt.Arena := ⟨[⟨[("v", voidFnValue)], none⟩]⟩

/-- `v()` — calling the void user function through its identifier. -/
def identCallV : rt.ExprNode := .fnCall spanC (.identifier spanB "v") []

/-- The arena after evaluating `v()` from `rootWithV`: the root plus the
call's parameter scope, body scope, and the body block's own scope. -/
def identCallFinalArena : rt.Arena :=
  ⟨[⟨[("v", voidFnValue)], none⟩, ⟨[], some 0⟩, ⟨[], some 1⟩, ⟨[], some 2⟩]⟩

/-- The arena after `call_func` runs the `{ return 42; }` closure from the
root: root plus parameter scope, body scope, and block scope. -/
def callFortyTwoFinalArena : rt.Arena :=
  ⟨[⟨[], none⟩, ⟨[], some 0⟩, ⟨[], some 1⟩, ⟨[], some 2⟩]⟩

/-- The callee name `interpret_expr_as_value` reports in a `NoneError`: the
identifier when the void call's callee expression is one, nothing otherwise. -/
def rt.callee_name : rt.ExprNode → Option String
  | .fnCall _ (.identifier _ id) _ => some id
  | _ => none

/-- The function value `fn f(a, b) { }` builds at the root scope. -/
def fValue : rt.Value :=
  .function (.user none ⟨2, false, [none, none]⟩ ["a", "b"] (.block spanA []) 0)

/-- The arena after `fn f(a,b){}; f(1,1);`: root binding `f`, the call's
parameter scope binding `a` and `b`, the body scope, and the block scope. -/
def callFTwoFinalArena : rt.Arena :=
  ⟨[⟨[("f", fValue)], none⟩,
    ⟨[("a", .number (.integer 1)), ("b", .number (.integer 1))], some 0⟩,
    ⟨[], some 1⟩, ⟨[], some 2⟩]⟩

/-- The then branch of the spec's merge example: `{ x = true; }`. -/
def assignXBlock : ast.StatementNode :=
  .block spanB [.assignment spanB ⟨spanB, .identifier "x"⟩ (.literal spanB (.bool true))]

/-- An empty block at position `spanC`. -/
def emptyBlockC : ast.StatementNode := .block spanC []

/-- An empty block at position `spanD`. -/
def emptyBlockD : ast.StatementNode := .block spanD []

/-- The checker environment after checking `{ x = true; }` from `envX`. -/
def envXBool : TypeEnvironment := ⟨[[("x", Ty.bool)]]⟩

theorem rres_bind_eq_ok {α β : Type} {r : rt.RRes α} {k : α → rt.Arena → rt.RRes β}
    {b : β} {st' : rt.Arena} (h : r.bind k = .ok b st') :
    ∃ a st₁, r = .ok a st₁ ∧ k a st₁ = .ok b st' := by
  cases r with
  | ok a st₁ => exact ⟨a, st₁, rfl, h⟩
  | err e p => simp [rt.RRes.bind] at h
  | panicked => simp [rt.RRes.bind] at h
  | timeout => simp [rt.RRes.bind] at h

theorem tres_bind_eq_ok {α β : Type} {r : TRes α} {k : α → TRes β} {b : β}
    (h : r.bind k = .ok b) : ∃ a, r = .ok a ∧ k a = .ok b := by
  cases r with
  | ok a => exact ⟨a, rfl, h⟩
  | panicked => simp [TRes.bind] at h
  | fuelOut => simp [TRes.bind] at h

/-- C9: For every pair of values given to `+`: Number plus Number yields a
Number, Tuple plus Tuple their concatenation, String plus String their
concatenation, String plus any other value (on either side) converts the
non-string side to text and concatenates — `1 + "x"` is `"1x"` and
`"x" + 1` is `"x1"` — and every other combination fails with
`BinaryTypeError`. -/
theorem add_dispatch_table :
    (∀ n m : rt.Number, operations.add (.number n) (.number m) = .ok (.number (n.add m)))
  ∧ (∀ xs ys : List rt.Value, operations.add (.tuple xs) (.tuple ys) = .ok (.tuple (xs ++ ys)))
  ∧ (∀ s t : String, operations.add (.string s) (.string t) = .ok (.string (s ++ t)))
  ∧ (∀ (s : String) (v : rt.Value), v.get_type ≠ .string →
       operations.add (.string s) v = .ok (.string (s ++ v.to_string)) ∧
       operations.add v (.string s) = .ok (.string (v.to_string ++ s)))
  ∧ (∀ a b : rt.Value,
       ¬(a.get_type = .number ∧ b.get_type = .number) →
       ¬(a.get_type = .tuple ∧ b.get_type = .tuple) →
       a.get_type ≠ .string → b.get_type ≠ .string →
       operations.add a b = .error (.binaryTypeError .add a.get_type b.get_type))
  ∧ operations.add (.number (.integer 1)) (.string "x") = .ok (.string "1x")
  ∧ operations.add (.string "x") (.number (.integer 1)) = .ok (.string "x1") := by
  refine ⟨fun n m => rfl, fun xs ys => rfl, fun s t => rfl, ?_, ?_, by rfl, by rfl⟩
  · intro s v hv
    cases v with
    | string t => exact absurd rfl hv
    | number n => exact ⟨rfl, rfl⟩
    | bool b => exact ⟨rfl, rfl⟩
    | tuple vs => exact ⟨rfl, rfl⟩
    | function fn => exact ⟨rfl, rfl⟩
  · intro a b hnn htt hs1 hs2
    cases a <;> cases b <;> simp_all [rt.Value.get_type, operations.add]

/-- Witness for `add_dispatch_table`: `true + false` is rejected with a
`BinaryTypeError` carrying both Bool type tags. -/
theorem add_dispatch_table_witness :
    operations.add (.bool true) (.bool false) =
      .error (.binaryTypeError .add rt.VType.bool rt.VType.bool) := by
  have h := add_dispatch_table.2.2.2.2.1 (.bool true) (.bool false)
    (by intro hc; cases hc.1) (by intro hc; cases hc.1)
    (by intro hc; cases hc) (by intro hc; cases hc)
  exact h

/-- C4: `and` evaluates the right operand only if the left is truthy (a
falsy left yields `Bool(false)` with the state untouched by the right
operand, which is arbitrary), `or` evaluates the right operand only if the
left is falsy, and the result is always a normalized Bool; in particular
`false and undefinedFn()` yields `Bool(false)` and `true or undefinedFn()`
yields `Bool(true)`, with `undefinedFn` never declared and no error. -/
theorem logical_and_or_short_circuit :
    (∀ (f : Nat) (p : SpanPos) (e1 e2 : rt.ExprNode) (env : Nat) (st st1 : rt.Arena)
       (v1 : rt.Value),
       rt.interpret_expr_as_value f e1 env st = .ok v1 st1 →
       v1.is_truthy = false →
       rt.interpret_expr (f + 1) (.binaryLogical p e1 .and e2) env st =
         .ok (some (.bool false)) st1)
  ∧ (∀ (f : Nat) (p : SpanPos) (e1 e2 : rt.ExprNode) (env : Nat) (st st1 st2 : rt.Arena)
       (v1 v2 : rt.Value),
       rt.interpret_expr_as_value f e1 env st = .ok v1 st1 →
       v1.is_truthy = true →
       rt.interpret_expr_as_value f e2 env st1 = .ok v2 st2 →
       rt.interpret_expr (f + 1) (.binaryLogical p e1 .and e2) env st =
         .ok (some (.bool v2.is_truthy)) st2)
  ∧ (∀ (f : Nat) (p : SpanPos) (e1 e2 : rt.ExprNode) (env : Nat) (st st1 : rt.Arena)
       (v1 : rt.Value),
       rt.interpret_expr_as_value f e1 env st = .ok v1 st1 →
       v1.is_truthy = true →
       rt.interpret_expr (f + 1) (.binaryLogical p e1 .or e2) env st =
         .ok (some (.bool true)) st1)
  ∧ (∀ (f : Nat) (p : SpanPos) (e1 e2 : rt.ExprNode) (env : Nat) (st st1 st2 : rt.Arena)
       (v1 v2 : rt.Value),
       rt.interpret_expr_as_value f e1 env st = .ok v1 st1 →
       v1.is_truthy = false →
       rt.interpret_expr_as_value f e2 env st1 = .ok v2 st2 →
       rt.interpret_expr (f + 1) (.binaryLogical p e1 .or e2) env st =
         .ok (some (.bool v2.is_truthy)) st2)
  ∧ rt.interpret_expr 10 (.binaryLogical spanA falseLit .and undefinedCall) 0 .new_root =
      .ok (some (.bool false)) .new_root
  ∧ rt.interpret_expr 10 (.binaryLogical spanA trueLit .or undefinedCall) 0 .new_root =
      .ok (some (.bool true)) .new_root := by
  refine ⟨?_, ?_, ?_, ?_, by rfl, by rfl⟩
  · intro f p e1 e2 env st st1 v1 h1 hfalsy
    simp only [rt.interpret_expr, h1, rt.RRes.bind, hfalsy]
    rfl
  · intro f p e1 e2 env st st1 st2 v1 v2 h1 htruthy h2
    simp only [rt.interpret_expr, h1, rt.RRes.bind, htruthy, h2]
    rfl
  · intro f p e1 e2 env st st1 v1 h1 htruthy
    simp only [rt.interpret_expr, h1, rt.RRes.bind, htruthy]
    rfl
  · intro f p e1 e2 env st st1 st2 v1 v2 h1 hfalsy h2
    simp only [rt.interpret_expr, h1, rt.RRes.bind, hfalsy, h2]
    rfl

/-- Witness for `logical_and_or_short_circuit`: a falsy left operand
(`false`) short-circuits `and` around an arbitrary right operand
(`undefinedFn()`). -/
theorem logical_and_or_short_circuit_witness :
    rt.interpret_expr 10 (.binaryLogical spanB falseLit .and undefinedCall) 0 .new_root =
      .ok (some (.bool false)) .new_root :=
  logical_and_or_short_circuit.1 9 spanB falseLit undefinedCall 0 .new_root .new_root
    (.bool false) (by rfl) (by rfl)

/-- C7: For `MemberByIdx`: a non-Tuple object gives
`SubscriptOnNonSubscriptable` (at the object's position); a Tuple with a
non-Integer index gives `NonIntegralSubscript` (at the index's position); a
negative or out-of-range Integer index gives `IndexOutOfBounds` carrying the
index (at the whole expression's position); otherwise the element at that
position, e.g. `(10,20,30)[1]` yields `20`. -/
theorem member_by_idx_dispatch :
    (∀ (f : Nat) (p : SpanPos) (objE idxE : rt.ExprNode) (env : Nat)
       (st st1 st2 : rt.Arena) (objV idxV : rt.Value),
       rt.interpret_expr_as_value f objE env st = .ok objV st1 →
       rt.interpret_expr_as_value f idxE env st1 = .ok idxV st2 →
         ((∀ vs, objV ≠ .tuple vs) →
            rt.interpret_expr (f + 1) (.memberByIdx p objE idxE) env st =
              .err (.subscriptOnNonSubscriptable objV.get_type) objE.pos)
       ∧ (∀ vs, objV = .tuple vs → (∀ i, idxV ≠ .number (.integer i)) →
            rt.interpret_expr (f + 1) (.memberByIdx p objE idxE) env st =
              .err (.nonIntegralSubscript idxV.get_type) idxE.pos)
       ∧ (∀ vs i, objV = .tuple vs → idxV = .number (.integer i) → i < 0 →
            rt.interpret_expr (f + 1) (.memberByIdx p objE idxE) env st =
              .err (.indexOutOfBounds i) p)
       ∧ (∀ vs i, objV = .tuple vs → idxV = .number (.integer i) → 0 ≤ i →
            (vs.length : Int) ≤ i →
            rt.interpret_expr (f + 1) (.memberByIdx p objE idxE) env st =
              .err (.indexOutOfBounds i) p)
       ∧ (∀ vs i x, objV = .tuple vs → idxV = .number (.integer i) → 0 ≤ i →
            vs.get? i.toNat = some x →
            rt.interpret_expr (f + 1) (.memberByIdx p objE idxE) env st =
              .ok (some x) st2))
  ∧ rt.interpret_expr 10 (.memberByIdx spanC tuple102030 (.literal spanB ⟨spanB, .integer 1⟩))
      0 .new_root = .ok (some (.number (.integer 20))) .new_root
  ∧ rt.interpret_expr 10 (.memberByIdx spanC tuple102030 (.literal spanB ⟨spanB, .integer 5⟩))
      0 .new_root = .err (.indexOutOfBounds 5) spanC
  ∧ rt.interpret_expr 10 (.memberByIdx spanC tuple102030 (.literal spanB ⟨spanB, .integer (-1)⟩))
      0 .new_root = .err (.indexOutOfBounds (-1)) spanC := by
  refine ⟨?_, by rfl, by rfl, by rfl⟩
  intro f p objE idxE env st st1 st2 objV idxV h1 h2
  refine ⟨?_, ?_, ?_, ?_, ?_⟩
  · intro hnt
    simp only [rt.interpret_expr, h1, rt.RRes.bind, h2]
  · intro vs hobj hni
    subst hobj
    simp only [rt.interpret_expr, h1, rt.RRes.bind, h2]
  · intro vs i hobj hidx hneg
    subst hobj; subst hidx
    simp only [rt.interpret_expr, h1, rt.RRes.bind, h2, if_pos hneg]
  · intro vs i hobj hidx hpos hlen
    subst hobj; subst hidx
    have hget : vs.get? i.toNat = none := by
      apply List.get?_eq_none.mpr
      omega
    simp only [rt.interpret_expr, h1, rt.RRes.bind, h2, if_neg (by omega : ¬i < 0), hget]
  · intro vs i x hobj hidx hpos hget
    subst hobj; subst hidx
    simp only [rt.interpret_expr, h1, rt.RRes.bind, h2, if_neg (by omega : ¬i < 0), hget]

/-- Witness for `member_by_idx_dispatch`: indexing the number `1` (not a
tuple) with `0` reports `SubscriptOnNonSubscriptable` at the object's
position. -/
theorem member_by_idx_dispatch_witness :
    rt.interpret_expr 10
      (.memberByIdx spanC (.literal spanA ⟨spanA, .integer 1⟩)
        (.literal spanB ⟨spanB, .integer 0⟩)) 0 .new_root =
      .err (.subscriptOnNonSubscriptable rt.VType.number) spanA :=
  ((member_by_idx_dispatch.1 9 spanC (.literal spanA ⟨spanA, .integer 1⟩)
      (.literal spanB ⟨spanB, .integer 0⟩) 0 .new_root .new_root .new_root
      (.number (.integer 1)) (.number (.integer 0)) (by rfl) (by rfl)).1)
    (by intro vs h; cases h)

/-- C6: For a call to a user-defined function whose body execution returns
normally, the call's result is `v` exactly when the body yields
`Return(Some v)`; a fall-through, a `Return` with no value, or a stray
`Break` all make the call yield void.  The body runs in one scope nested
inside the parameter scope, which is a child of the captured environment. -/
theorem call_func_user_return_convention :
    ∀ (f : Nat) (rtype : Option rt.ConstraintType) (cs : rt.CallSign)
      (param_names : List String) (body : rt.StmtNode) (envRef : Nat)
      (arg_vals : List rt.Value) (st st' : rt.Arena) (res : rt.StmtResult),
      rt.interpret_statement f body
          (((rt.declare_params (st.create_child envRef).1 (st.create_child envRef).2
              (param_names.zip arg_vals)).create_child (st.create_child envRef).2).2)
          (((rt.declare_params (st.create_child envRef).1 (st.create_child envRef).2
              (param_names.zip arg_vals)).create_child (st.create_child envRef).2).1) =
        .ok res st' →
      rt.call_func (f + 1) (.user rtype cs param_names body envRef) arg_vals st =
        .ok (match res with
             | .ret (some v) => some v
             | .ret none => none
             | _ => none) st' := by
  intro f rtype cs param_names body envRef arg_vals st st' res h
  simp only [rt.call_func, h]
  cases res with
  | ret v => cases v <;> rfl
  | none => rfl
  | value v => rfl
  | breakSignal => rfl

/-- Witness for `call_func_user_return_convention`: calling the
`{ return 42; }` closure yields `42` and the arena gains the parameter,
body, and block scopes. -/
theorem call_func_user_return_convention_witness :
    rt.call_func 11 fnReturnFortyTwo [] .new_root =
      .ok (some (.number (.integer 42))) callFortyTwoFinalArena :=
  call_func_user_return_convention 10 none ⟨0, false, []⟩ [] returnFortyTwoBody 0 []
    .new_root callFortyTwoFinalArena (.ret (some (.number (.integer 42)))) (by rfl)

/-- C8 (code bug): `interpret_expr` evaluates the arguments left-to-right
before validating arity — `f(undeclaredArg)` fails with the argument's
`ReferenceError`, not `ArgumentLength` — and a 2-parameter non-variadic
function called with 2 arguments passes; but when the arity check does fire
it can never name the callee: `check_args_compat` receives the WHOLE call
node (`e`), whose payload is `FnCall`, never `Identifier`, so
`fn f(a,b){}; f(1)` yields `ArgumentLength(None)` (at the call's position)
although the callee is the identifier `f`.  The last conjunct shows the
never-taken naming branch the function contains. -/
theorem arity_check_cannot_name_callee :
    rt.interpret_statements 20 [.expr spanA fnDefF, .expr spanA callFOneArg] 0 .new_root =
      .err (.argumentLength none) spanC
  ∧ rt.interpret_statements 20 [.expr spanA fnDefF, .expr spanA callFTwoArgs] 0 .new_root =
      .ok (some .none) callFTwoFinalArena
  ∧ rt.interpret_statements 20 [.expr spanA fnDefF, .expr spanA callFBadArg] 0 .new_root =
      .err (.referenceError "undeclaredArg") spanD
  ∧ rt.check_args_compat [.number (.integer 1)] ⟨2, false, [none, none]⟩ callFOneArg =
      .error (.argumentLength none, spanC)
  ∧ rt.check_args_compat [.number (.integer 1)] ⟨2, false, [none, none]⟩
      (.identifier spanB "f") = .error (.argumentLength (some "f"), spanB) :=
  ⟨rfl, rfl, rfl, rfl, rfl⟩

/-- C5: a void (`Ok(None)`) evaluation result can only come from a
`FnCall` expression: every other arm of `interpret_expr` either produces a
value or fails, so `interpret_expr_as_value`'s `unreachable!()` branch
really is unreachable; and the rejection yields a `NoneError` naming the
callee exactly when the callee expression is an identifier. -/
theorem void_result_only_from_call :
    ∀ (f : Nat) (e : rt.ExprNode) (env : Nat) (st st' : rt.Arena),
      rt.interpret_expr f e env st = .ok none st' →
      (∃ p fe args, e = .fnCall p fe args) ∧
      rt.interpret_expr_as_value (f + 1) e env st =
        .err (.noneError (rt.callee_name e)) e.pos := by
  intro f e env st st' h
  have hshape : ∃ p fe args, e = .fnCall p fe args := by
    match f with
    | 0 => simp [rt.interpret_expr] at h
    | f + 1 =>
      cases e with
      | fnCall p fe args => exact ⟨p, fe, args, rfl⟩
      | literal pos x => simp [rt.interpret_expr] at h
      | identifier pos id =>
        simp only [rt.interpret_expr] at h
        split at h <;> simp_all
      | tuple pos elems =>
        simp only [rt.interpret_expr] at h
        obtain ⟨_, _, _, h⟩ := rres_bind_eq_ok h
        simp at h
      | unary pos op sub =>
        simp only [rt.interpret_expr] at h
        obtain ⟨_, _, _, h⟩ := rres_bind_eq_ok h
        split at h <;> simp_all
      | unaryLogical pos op sub =>
        simp only [rt.interpret_expr] at h
        obtain ⟨_, _, _, h⟩ := rres_bind_eq_ok h
        simp at h
      | binary pos e1 op e2 =>
        simp only [rt.interpret_expr] at h
        obtain ⟨_, _, _, h⟩ := rres_bind_eq_ok h
        obtain ⟨_, _, _, h⟩ := rres_bind_eq_ok h
        split at h <;> simp_all
      | binaryLogical pos e1 op e2 =>
        simp only [rt.interpret_expr] at h
        split at h
        · obtain ⟨_, _, _, h⟩ := rres_bind_eq_ok h
          split at h
          · simp_all
          · obtain ⟨_, _, _, h⟩ := rres_bind_eq_ok h
            simp_all
        · obtain ⟨_, _, _, h⟩ := rres_bind_eq_ok h
          split at h
          · simp_all
          · obtain ⟨_, _, _, h⟩ := rres_bind_eq_ok h
            simp_all
      | memberByIdx pos objE idxE =>
        simp only [rt.interpret_expr] at h
        obtain ⟨_, _, _, h⟩ := rres_bind_eq_ok h
        obtain ⟨_, _, _, h⟩ := rres_bind_eq_ok h
        split at h <;> (try split at h) <;> (try split at h) <;> (try split at h) <;>
          simp_all
      | fnDef pos maybeId params body maybeRet =>
        simp only [rt.interpret_expr] at h
        split at h <;> simp_all
  refine ⟨hshape, ?_⟩
  obtain ⟨p, fe, args, rfl⟩ := hshape
  simp only [rt.interpret_expr_as_value, h, rt.RRes.bind]
  cases fe <;> rfl

/-- Witness for `void_result_only_from_call`: `v()` (a void user function
called through the identifier `v`) evaluates to `Ok(None)`, and the
value-required wrapper rejects it with `NoneError(Some "v")` at the call's
position. -/
theorem void_result_only_from_call_witness :
    (∃ p fe args, identCallV = rt.ExprNode.fnCall p fe args) ∧
    rt.interpret_expr_as_value 11 identCallV 0 rootWithV =
      .err (.noneError (some "v")) spanC :=
  void_result_only_from_call 10 identCallV 0 rootWithV identCallFinalArena (by rfl)

/-- Counterexample to C3: the checker CAN abort early and return a partial
issue list.  For `if (println()) { undeclared; }` (a void builtin call as
condition), `check_statement` returns only the condition's `NoneError`,
while checking the then block alone shows it contains a reachable
`ReferenceError` — an issue the whole-statement check drops. -/
theorem ifthen_void_cond_drops_branch_issues :
    check_statement_c 20 ifThenVoidCond envEmptyScope =
      .ok ([(.interpreterError (.noneError "println"), spanB)], envEmptyScope)
  ∧ check_statement_c 20 undeclaredBlock envEmptyScope =
      .ok ([(.interpreterError (.referenceError "undeclared"), spanD)], envEmptyScope) :=
  ⟨rfl, rfl⟩

/-- C3 amended: at the statement-sequence level the checker accumulates and
never stops early — each statement's issues are appended and the walk
continues with the updated environment, and the whole run returns success
exactly when the accumulated list is empty; EXCEPT that an `IfThen` whose
condition is a void builtin call returns immediately with only that
`NoneError`, skipping the branch entirely (the conclusion does not depend
on the branch `tb`). -/
theorem issue_accumulation_except_void_cond :
    (∀ (f : Nat) (s : ast.StatementNode) (rest : List ast.StatementNode)
       (env env' env'' : TypeEnvironment)
       (iss iss2 : List TypeCheckerIssueWithPosition),
       check_statement_c f s env = .ok (iss, env') →
       check_statements_c f rest env' = .ok (iss2, env'') →
       check_statements_c (f + 1) (s :: rest) env = .ok (iss ++ iss2, env''))
  ∧ (∀ (f : Nat) (ss : List ast.StatementNode) (env env' : TypeEnvironment)
       (iss : List TypeCheckerIssueWithPosition),
       check_statements_c f ss env = .ok (iss, env') →
       check_statements f ss env = .ok (issuesToResult iss, env'))
  ∧ (∀ (g : Nat) (p pc : SpanPos) (id : String) (args : List ast.ExprNode)
       (tb : ast.StatementNode) (env : TypeEnvironment),
       get_builtin_from_name id = some .void →
       check_call_args g args env = .ok [] →
       check_statement_c (g + 2) (.ifThen p (.functionCall pc id args) tb) env =
         .ok ([(.interpreterError (.noneError id), pc)], env)) := by
  refine ⟨?_, ?_, ?_⟩
  · intro f s rest env env' env'' iss iss2 h1 h2
    simp only [check_statements_c, h1, TRes.bind, h2]
  · intro f ss env env' iss h
    simp only [check_statements, h, TRes.bind]
  · intro g p pc id args tb env hb hargs
    simp only [check_statement_c, check_expr, hb, hargs, TRes.bind, if_cond_early]
    rfl

/-- Witness for `issue_accumulation_except_void_cond`: the early-return
conjunct at `if (println()) empty;`. -/
theorem issue_accumulation_except_void_cond_witness :
    check_statement_c 3 (.ifThen spanA (.functionCall spanB "println" []) (.empty spanD))
      envEmptyScope =
      .ok ([(.interpreterError (.noneError "println"), spanB)], envEmptyScope) :=
  issue_accumulation_except_void_cond.2.2 1 spanA spanB "println" [] (.empty spanD)
    envEmptyScope (by rfl) (by rfl)

theorem arena_wf_parent_lt {A : List rt.Scope} (hwf : rt.Arena.wf ⟨A⟩) {r : Nat}
    {sc : rt.Scope} (h : A.get? r = some sc) {p : Nat} (hp : sc.parent = some p) :
    p < r :=
  hwf r sc h p hp

theorem depthFrom_append (A B : List rt.Scope) (hwf : rt.Arena.wf ⟨A⟩) :
    ∀ (fuel r : Nat), r < A.length →
      rt.Arena.depthFrom ⟨A ++ B⟩ fuel r = rt.Arena.depthFrom ⟨A⟩ fuel r := by
  intro fuel
  induction fuel with
  | zero => intro r _; rfl
  | succ f ih =>
    intro r hr
    have hget : (A ++ B).get? r = A.get? r := List.get?_append hr
    simp only [rt.Arena.depthFrom, hget]
    cases hA : A.get? r with
    | none => rfl
    | some sc =>
      cases hpar : sc.parent with
      | none => simp [hpar]
      | some p =>
        have hp : p < A.length := lt_trans (arena_wf_parent_lt hwf hA hpar) hr
        simp [hpar, ih p hp]

theorem create_child_depth (st : rt.Arena) (r : Nat) (hwf : st.wf)
    (hr : r < st.scopes.length) :
    ((st.create_child r).1).depth (st.create_child r).2 = st.depth r + 1 := by
  have hlen : (st.scopes ++ [(⟨[], some r⟩ : rt.Scope)]).length = st.scopes.length + 1 := by
    simp
  simp only [rt.Arena.create_child, rt.Arena.depth, hlen]
  have hget : (st.scopes ++ [(⟨[], some r⟩ : rt.Scope)]).get? st.scopes.length =
      some ⟨[], some r⟩ := List.get?_concat_length _ _
  simp only [rt.Arena.depthFrom, hget]
  have hwf' : rt.Arena.wf ⟨st.scopes⟩ := hwf
  rw [depthFrom_append st.scopes [⟨[], some r⟩] hwf' st.scopes.length r hr]

/-- Counterexample to C2: evaluating `loop { break; }` from the root opens
one child scope for the loop (the final arena retains it: scope 1 is a
child of the root, at depth 2), while the type checker checks the same
loop's body against the UNCHANGED one-scope environment — the two passes'
scope depths differ at the loop body. -/
theorem loop_scope_depth_mismatch :
    rt.interpret_statement 5 loopBreakRt 0 .new_root = .ok .none loopFinalArena
  ∧ loopFinalArena.scopes.get? 1 = some ⟨[], some 0⟩
  ∧ loopFinalArena.depth 1 = 2
  ∧ rt.Arena.new_root.depth 0 = 1
  ∧ check_statement_c 20 loopBreakAst envEmptyScope =
      check_statement_c 19 (.breakStmt spanB) envEmptyScope
  ∧ envEmptyScope.symbol_tables.length = 1 :=
  ⟨rfl, rfl, rfl, rfl, rfl, rfl⟩

/-- C2 amended: for a Block both passes open exactly one scope (the
evaluator one child environment, the checker one pushed symbol table); but
for a Loop the evaluator interprets the body in a fresh child of the
incoming environment — one level deeper, as the last conjunct makes precise
— while the checker checks the body against the incoming environment
itself, so the scope depths agree at Blocks but differ by one inside a
non-Block loop body. -/
theorem scope_opening_block_vs_loop :
    (∀ (f : Nat) (p : SpanPos) (ss : List rt.StmtNode) (r : Nat) (st : rt.Arena),
       rt.interpret_statement (f + 1) (.block p ss) r st =
         rt.interpret_block f ss (st.create_child r).2 (st.create_child r).1 .none)
  ∧ (∀ (f : Nat) (p : SpanPos) (ss : List ast.StatementNode) (env : TypeEnvironment),
       check_statement_c (f + 1) (.block p ss) env =
         (check_statements_c f ss env.start_scope).bind fun r => .ok (r.1, r.2.end_scope))
  ∧ (∀ (f : Nat) (p : SpanPos) (b : rt.StmtNode) (r : Nat) (st : rt.Arena),
       rt.interpret_statement (f + 1) (.loop p b) r st =
         rt.interpret_loop f b (st.create_child r).2 (st.create_child r).1)
  ∧ (∀ (f : Nat) (p : SpanPos) (b : ast.StatementNode) (env : TypeEnvironment),
       check_statement_c (f + 1) (.loop p b) env =
         (check_statement_c f b env).bind fun r => .ok (r.1, r.2))
  ∧ (∀ (st : rt.Arena) (r : Nat), st.wf → r < st.scopes.length →
       ((st.create_child r).1).depth (st.create_child r).2 = st.depth r + 1) :=
  ⟨fun _ _ _ _ _ => rfl, fun _ _ _ _ => rfl, fun _ _ _ _ _ => rfl, fun _ _ _ _ => rfl,
   fun st r hwf hr => create_child_depth st r hwf hr⟩

/-- Witness for `scope_opening_block_vs_loop`: from the root arena, the
loop's child scope sits at depth `1 + 1`. -/
theorem scope_opening_block_vs_loop_witness :
    ((rt.Arena.new_root.create_child 0).1).depth (rt.Arena.new_root.create_child 0).2 =
      rt.Arena.new_root.depth 0 + 1 :=
  scope_opening_block_vs_loop.2.2.2.2 rt.Arena.new_root 0
    (by
      intro i sc h p hp
      cases i with
      | zero =>
        simp only [rt.Arena.new_root, List.get?] at h
        cases h
        cases hp
      | succ n =>
        simp only [rt.Arena.new_root, List.get?] at h
        cases n <;> cases h)
    (by decide)


theorem getKey_insert_same (t : SymbolTable) (k : String) (v : Ty) :
    (t.insert k v).getKey k = some v := by
  induction t with
  | nil => simp [SymbolTable.insert, SymbolTable.getKey]
  | cons kv rest ih =>
    by_cases h : kv.1 = k
    · simp [SymbolTable.insert, SymbolTable.getKey, h]
    · simp [SymbolTable.insert, SymbolTable.getKey, h, ih]

theorem getKey_insert_other (t : SymbolTable) (k k' : String) (v : Ty) (h : k' ≠ k) :
    (t.insert k v).getKey k' = t.getKey k' := by
  induction t with
  | nil => simp [SymbolTable.insert, SymbolTable.getKey, Ne.symm h]
  | cons kv rest ih =>
    by_cases hk : kv.1 = k
    · subst hk
      simp [SymbolTable.insert, SymbolTable.getKey, Ne.symm h]
    · by_cases hk' : kv.1 = k'
      · simp [SymbolTable.insert, SymbolTable.getKey, hk, hk', h]
      · simp [SymbolTable.insert, SymbolTable.getKey, hk, hk', h, ih]

theorem containsKey_iff_getKey_isSome (t : SymbolTable) (k : String) :
    t.containsKey k = true ↔ (t.getKey k).isSome = true := by
  induction t with
  | nil => simp [SymbolTable.containsKey, SymbolTable.getKey]
  | cons kv rest ih =>
    by_cases h : kv.1 = k
    · simp [SymbolTable.containsKey, SymbolTable.getKey, h]
    · simp [SymbolTable.containsKey, SymbolTable.getKey, h, ih]

theorem containsKey_insert_of_contains (t : SymbolTable) (k k' : String) (v : Ty)
    (hc : t.containsKey k = true) :
    (t.insert k v).containsKey k' = t.containsKey k' := by
  induction t with
  | nil => simp [SymbolTable.containsKey] at hc
  | cons kv rest ih =>
    by_cases hk : kv.1 = k
    · by_cases hk' : k = k'
      · subst hk'
        simp [SymbolTable.insert, SymbolTable.containsKey, hk]
      · simp [SymbolTable.insert, SymbolTable.containsKey, hk, hk']
    · have hc' : SymbolTable.containsKey rest k = true := by
        simp [SymbolTable.containsKey, hk] at hc
        exact hc
      simp [SymbolTable.insert, SymbolTable.containsKey, hk, ih hc']

theorem containsKey_insert_self (t : SymbolTable) (k : String) (v : Ty) :
    (t.insert k v).containsKey k = true := by
  rw [containsKey_iff_getKey_isSome, getKey_insert_same]
  rfl

theorem insert_subKeys (t : SymbolTable) (k : String) (v : Ty) :
    t.subKeys (t.insert k v) := by
  intro k' hk'
  by_cases h : k' = k
  · subst h; exact containsKey_insert_self t k' v
  · rw [containsKey_iff_getKey_isSome, getKey_insert_other t k k' v h]
    rw [containsKey_iff_getKey_isSome] at hk'
    exact hk'

theorem containsKey_false_getKey_none (t : SymbolTable) (k : String)
    (h : t.containsKey k = false) : t.getKey k = none := by
  cases hg : t.getKey k with
  | none => rfl
  | some v =>
    have : t.containsKey k = true := by
      rw [containsKey_iff_getKey_isSome, hg]; rfl
    rw [this] at h; cases h

theorem get_set_same (ts : List SymbolTable) (id : String) (ty : Ty)
    (h : (TypeEnvironment.get_type_tables id ts).isSome = true) :
    TypeEnvironment.get_type_tables id (TypeEnvironment.set_tables id ty ts).2 = some ty := by
  induction ts with
  | nil => simp [TypeEnvironment.get_type_tables] at h
  | cons t rest ih =>
    by_cases hc : t.containsKey id = true
    · simp only [TypeEnvironment.set_tables, hc, if_true]
      simp [TypeEnvironment.get_type_tables, getKey_insert_same]
    · have hc' : t.containsKey id = false := by
        cases hcc : t.containsKey id
        · rfl
        · exact absurd hcc hc
      have hg : t.getKey id = none := containsKey_false_getKey_none t id hc'
      simp only [TypeEnvironment.set_tables, hc', Bool.false_eq_true, if_false]
      simp only [TypeEnvironment.get_type_tables, hg] at h ⊢
      exact ih h

theorem get_set_other (ts : List SymbolTable) (id k : String) (ty : Ty) (h : k ≠ id) :
    TypeEnvironment.get_type_tables k (TypeEnvironment.set_tables id ty ts).2 = TypeEnvironment.get_type_tables k ts := by
  induction ts with
  | nil => simp [TypeEnvironment.set_tables]
  | cons t rest ih =>
    by_cases hc : t.containsKey id = true
    · simp only [TypeEnvironment.set_tables, hc, if_true]
      simp [TypeEnvironment.get_type_tables, getKey_insert_other t id k ty h]
    · have hc' : t.containsKey id = false := by
        cases hcc : t.containsKey id
        · rfl
        · exact absurd hcc hc
      simp only [TypeEnvironment.set_tables, hc', Bool.false_eq_true, if_false]
      simp only [TypeEnvironment.get_type_tables]
      cases t.getKey k with
      | some v => rfl
      | none => exact ih

theorem sameKeys_refl (t : SymbolTable) : t.sameKeys t := fun _ => rfl

theorem forall₂_sameKeys_refl (ts : List SymbolTable) :
    List.Forall₂ SymbolTable.sameKeys ts ts := by
  induction ts with
  | nil => exact List.Forall₂.nil
  | cons t rest ih => exact List.Forall₂.cons (sameKeys_refl t) ih

theorem forall₂_sameKeys_trans {a b c : List SymbolTable}
    (h1 : List.Forall₂ SymbolTable.sameKeys a b)
    (h2 : List.Forall₂ SymbolTable.sameKeys b c) :
    List.Forall₂ SymbolTable.sameKeys a c := by
  induction h1 generalizing c with
  | nil => cases h2; exact List.Forall₂.nil
  | cons hab h ih =>
    cases h2 with
    | cons hbc h' =>
      exact List.Forall₂.cons (fun k => (hab k).trans (hbc k)) (ih h')

theorem set_tables_sameKeys (ts : List SymbolTable) (id : String) (ty : Ty) :
    List.Forall₂ SymbolTable.sameKeys ts (TypeEnvironment.set_tables id ty ts).2 := by
  induction ts with
  | nil => exact List.Forall₂.nil
  | cons t rest ih =>
    by_cases hc : t.containsKey id = true
    · simp only [TypeEnvironment.set_tables, hc, if_true]
      exact List.Forall₂.cons
        (fun k => (containsKey_insert_of_contains t id k ty hc).symm)
        (forall₂_sameKeys_refl rest)
    · have hc' : t.containsKey id = false := by
        cases hcc : t.containsKey id
        · rfl
        · exact absurd hcc hc
      simp only [TypeEnvironment.set_tables, hc', Bool.false_eq_true, if_false]
      exact List.Forall₂.cons (sameKeys_refl t) ih

theorem env_set_sameKeys (env : TypeEnvironment) (id : String) (ty : Ty) :
    List.Forall₂ SymbolTable.sameKeys env.symbol_tables
      ((env.set id ty).2).symbol_tables :=
  set_tables_sameKeys env.symbol_tables id ty

theorem env_get_set_same (env : TypeEnvironment) (id : String) (ty : Ty)
    (h : (env.get_type id).isSome = true) :
    ((env.set id ty).2).get_type id = some ty :=
  get_set_same env.symbol_tables id ty h

theorem env_get_set_other (env : TypeEnvironment) (id k : String) (ty : Ty)
    (h : k ≠ id) :
    ((env.set id ty).2).get_type k = env.get_type k :=
  get_set_other env.symbol_tables id k ty h

theorem get_type_isSome_iff_exists (ts : List SymbolTable) (k : String) :
    (TypeEnvironment.get_type_tables k ts).isSome = true ↔
      ∃ t ∈ ts, t.containsKey k = true := by
  induction ts with
  | nil => simp [TypeEnvironment.get_type_tables]
  | cons t rest ih =>
    simp only [TypeEnvironment.get_type_tables]
    cases hg : t.getKey k with
    | some v =>
      have hc : t.containsKey k = true := by
        rw [containsKey_iff_getKey_isSome, hg]; rfl
      simp only [Option.isSome_some, true_iff]
      exact ⟨t, List.mem_cons_self t rest, hc⟩
    | none =>
      rw [ih]
      constructor
      · rintro ⟨t', ht', hc⟩
        exact ⟨t', List.mem_cons_of_mem t ht', hc⟩
      · rintro ⟨t', ht', hc⟩
        rcases List.mem_cons.mp ht' with rfl | hmem
        · rw [containsKey_iff_getKey_isSome, hg] at hc
          cases hc
        · exact ⟨t', hmem, hc⟩

theorem mem_map_fst_iff_containsKey (t : SymbolTable) (k : String) :
    k ∈ t.map Prod.fst ↔ t.containsKey k = true := by
  induction t with
  | nil => simp [SymbolTable.containsKey]
  | cons kv rest ih =>
    simp only [List.map_cons, List.mem_cons, SymbolTable.containsKey,
      Bool.or_eq_true, decide_eq_true_eq, ih]
    constructor
    · rintro (rfl | h)
      · exact Or.inl rfl
      · exact Or.inr h
    · rintro (h | h)
      · exact Or.inl h.symm
      · exact Or.inr h

theorem mem_get_all_keys_iff (env : TypeEnvironment) (k : String) :
    k ∈ env.get_all_keys ↔ ∃ t ∈ env.symbol_tables, t.containsKey k = true := by
  unfold TypeEnvironment.get_all_keys
  rw [List.mem_dedup, List.mem_flatMap]
  constructor
  · rintro ⟨t, ht, hk⟩
    exact ⟨t, ht, (mem_map_fst_iff_containsKey t k).mp hk⟩
  · rintro ⟨t, ht, hk⟩
    exact ⟨t, ht, (mem_map_fst_iff_containsKey t k).mpr hk⟩

theorem mem_get_all_keys_iff_get_type (env : TypeEnvironment) (k : String) :
    k ∈ env.get_all_keys ↔ (env.get_type k).isSome = true := by
  rw [mem_get_all_keys_iff, ← get_type_isSome_iff_exists]
  rfl

theorem forall₂_sameKeys_get_isSome {ts ts' : List SymbolTable}
    (h : List.Forall₂ SymbolTable.sameKeys ts ts') (k : String) :
    (TypeEnvironment.get_type_tables k ts).isSome = (TypeEnvironment.get_type_tables k ts').isSome := by
  by_cases h1 : (TypeEnvironment.get_type_tables k ts).isSome = true
  · obtain ⟨t, ht, hc⟩ := (get_type_isSome_iff_exists ts k).mp h1
    obtain ⟨t', ht', hmatch⟩ : ∃ t' ∈ ts', t.sameKeys t' := by
      clear h1 hc
      induction h with
      | nil => cases ht
      | cons hx hrest ih =>
        rcases List.mem_cons.mp ht with rfl | hmem
        · exact ⟨_, List.mem_cons_self _ _, hx⟩
        · obtain ⟨t', ht', hm⟩ := ih hmem
          exact ⟨t', List.mem_cons_of_mem _ ht', hm⟩
    have h2 : (TypeEnvironment.get_type_tables k ts').isSome = true :=
      (get_type_isSome_iff_exists ts' k).mpr ⟨t', ht', by rw [← hmatch k]; exact hc⟩
    rw [h1, h2]
  · have h1' : (TypeEnvironment.get_type_tables k ts).isSome = false := by
      cases hh : (TypeEnvironment.get_type_tables k ts).isSome
      · rfl
      · exact absurd hh h1
    by_cases h2 : (TypeEnvironment.get_type_tables k ts').isSome = true
    · obtain ⟨t', ht', hc⟩ := (get_type_isSome_iff_exists ts' k).mp h2
      obtain ⟨t, ht, hmatch⟩ : ∃ t ∈ ts, t.sameKeys t' := by
        clear h2 hc h1 h1'
        induction h with
        | nil => cases ht'
        | cons hx hrest ih =>
          rcases List.mem_cons.mp ht' with rfl | hmem
          · exact ⟨_, List.mem_cons_self _ _, hx⟩
          · obtain ⟨t, ht, hm⟩ := ih hmem
            exact ⟨t, List.mem_cons_of_mem _ ht, hm⟩
      have : (TypeEnvironment.get_type_tables k ts).isSome = true :=
        (get_type_isSome_iff_exists ts k).mpr ⟨t, ht, by rw [hmatch k]; exact hc⟩
      rw [this] at h1'; cases h1'
    · have h2' : (TypeEnvironment.get_type_tables k ts').isSome = false := by
        cases hh : (TypeEnvironment.get_type_tables k ts').isSome
        · rfl
        · exact absurd hh h2
      rw [h1', h2']

theorem keysRel_refl (ts : List SymbolTable) : KeysRel ts ts := by
  cases ts with
  | nil => trivial
  | cons t rest => exact ⟨fun _ h => h, forall₂_sameKeys_refl rest⟩

theorem keysRel_of_forall₂ {ts ts' : List SymbolTable}
    (h : List.Forall₂ SymbolTable.sameKeys ts ts') : KeysRel ts ts' := by
  cases h with
  | nil => trivial
  | cons hx hrest => exact ⟨fun k hk => by rw [← hx k]; exact hk, hrest⟩

theorem keysRel_trans {a b c : List SymbolTable}
    (h1 : KeysRel a b) (h2 : KeysRel b c) : KeysRel a c := by
  cases a with
  | nil =>
    cases b with
    | nil => exact h2
    | cons _ _ => cases h1
  | cons t arest =>
    cases b with
    | nil => cases h1
    | cons u brest =>
      cases c with
      | nil => cases h2
      | cons v crest =>
        obtain ⟨hab, habr⟩ := h1
        obtain ⟨hbc, hbcr⟩ := h2
        exact ⟨fun k hk => hbc k (hab k hk), forall₂_sameKeys_trans habr hbcr⟩

theorem warn_count_nil (k : String) : warn_count k [] = 0 := rfl

theorem warn_count_append (k : String) (l1 l2 : List TypeCheckerIssueWithPosition) :
    warn_count k (l1 ++ l2) = warn_count k l1 + warn_count k l2 := by
  unfold warn_count
  rw [List.filter_append, List.length_append]

theorem warn_count_warning_same (k : String) (p : SpanPos) :
    warn_count k [(.multipleTypesFromBranchWarning k, p)] = 1 := by
  simp [warn_count]

theorem warn_count_warning_ne (k n : String) (p : SpanPos) (h : n ≠ k) :
    warn_count k [(.multipleTypesFromBranchWarning n, p)] = 0 := by
  simp [warn_count, h]

theorem merge_loop_env_sameKeys :
    ∀ (names : List String) (pos : SpanPos) (te ee env env' : TypeEnvironment)
      (acc iss : List TypeCheckerIssueWithPosition),
      merge_loop pos te ee names env acc = .ok (iss, env') →
      List.Forall₂ SymbolTable.sameKeys env.symbol_tables env'.symbol_tables := by
  intro names
  induction names with
  | nil =>
    intro pos te ee env env' acc iss h
    simp only [merge_loop] at h
    cases h
    exact forall₂_sameKeys_refl _
  | cons name rest ih =>
    intro pos te ee env env' acc iss h
    cases hte : te.get_type name with
    | none => simp only [merge_loop, hte] at h; cases h
    | some t1 =>
      cases hee : ee.get_type name with
      | none => simp only [merge_loop, hte, hee] at h; cases h
      | some t2 =>
        simp only [merge_loop, hte, hee] at h
        by_cases hne : t2 ≠ t1
        · rw [if_pos hne] at h
          exact forall₂_sameKeys_trans (env_set_sameKeys env name .any)
            (ih pos te ee _ env' _ iss h)
        · rw [if_neg hne] at h
          exact forall₂_sameKeys_trans (env_set_sameKeys env name t1)
            (ih pos te ee _ env' _ iss h)

theorem merge_loop_spec :
    ∀ (names : List String) (pos : SpanPos) (te ee : TypeEnvironment)
      (env : TypeEnvironment) (acc : List TypeCheckerIssueWithPosition),
      names.Nodup →
      (∀ k ∈ names, (te.get_type k).isSome = true ∧ (ee.get_type k).isSome = true ∧
        (env.get_type k).isSome = true) →
      ∃ miss env',
        merge_loop pos te ee names env acc = .ok (acc ++ miss, env') ∧
        (∀ k ∈ names, ∃ t1 t2,
           te.get_type k = some t1 ∧ ee.get_type k = some t2 ∧
           ((t1 = t2 → env'.get_type k = some t1 ∧ warn_count k miss = 0) ∧
            (t1 ≠ t2 → env'.get_type k = some Ty.any ∧ warn_count k miss = 1))) ∧
        (∀ k, k ∉ names → env'.get_type k = env.get_type k ∧ warn_count k miss = 0) := by
  intro names
  induction names with
  | nil =>
    intro pos te ee env acc _ _
    refine ⟨[], env, ?_, ?_, ?_⟩
    · simp [merge_loop]
    · intro k hk; cases hk
    · intro k _; exact ⟨rfl, rfl⟩
  | cons name rest ih =>
    intro pos te ee env acc hnodup hsome
    obtain ⟨hte, hee, henv⟩ := hsome name (List.mem_cons_self name rest)
    obtain ⟨t1, ht1⟩ := Option.isSome_iff_exists.mp hte
    obtain ⟨t2, ht2⟩ := Option.isSome_iff_exists.mp hee
    have hname_not_rest : name ∉ rest := (List.nodup_cons.mp hnodup).1
    have hrest_nodup : rest.Nodup := (List.nodup_cons.mp hnodup).2
    by_cases hne : t2 ≠ t1
    · -- disagreement: warn and force Any
      have hrun : merge_loop pos te ee (name :: rest) env acc =
          merge_loop pos te ee rest ((env.set name .any).2)
            (acc ++ [(.multipleTypesFromBranchWarning name, pos)]) := by
        simp only [merge_loop, ht1, ht2, if_pos hne]
      have hsome' : ∀ k ∈ rest, (te.get_type k).isSome = true ∧
          (ee.get_type k).isSome = true ∧
          (((env.set name .any).2).get_type k).isSome = true := by
        intro k hk
        have hkname : k ≠ name := fun hkn => hname_not_rest (hkn ▸ hk)
        obtain ⟨h1, h2, h3⟩ := hsome k (List.mem_cons_of_mem name hk)
        exact ⟨h1, h2, by rw [env_get_set_other env name k .any hkname]; exact h3⟩
      obtain ⟨miss', env', hrun', hin, hout⟩ :=
        ih pos te ee ((env.set name .any).2)
          (acc ++ [(.multipleTypesFromBranchWarning name, pos)]) hrest_nodup hsome'
      refine ⟨(.multipleTypesFromBranchWarning name, pos) :: miss', env', ?_, ?_, ?_⟩
      · rw [hrun, hrun']
        congr 1
        rw [List.append_assoc]
        rfl
      · intro k hk
        rcases List.mem_cons.mp hk with rfl | hkrest
        · refine ⟨t1, t2, ht1, ht2, ?_, ?_⟩
          · intro heq; exact absurd heq.symm hne
          · intro _
            obtain ⟨hgenv, hwc⟩ := hout k hname_not_rest
            constructor
            · rw [hgenv, env_get_set_same env k Ty.any henv]
            · show warn_count k ((.multipleTypesFromBranchWarning k, pos) :: miss') = 1
              have : (.multipleTypesFromBranchWarning k, pos) :: miss' =
                  [((.multipleTypesFromBranchWarning k : TypeCheckerIssue), pos)] ++ miss' := rfl
              rw [this, warn_count_append, warn_count_warning_same, hwc]
        · obtain ⟨u1, u2, hu1, hu2, hprops⟩ := hin k hkrest
          have hkname : k ≠ name := fun hkn => hname_not_rest (hkn ▸ hkrest)
          refine ⟨u1, u2, hu1, hu2, ?_, ?_⟩
          · intro heq
            obtain ⟨ha, hb⟩ := hprops.1 heq
            refine ⟨ha, ?_⟩
            have : (.multipleTypesFromBranchWarning name, pos) :: miss' =
                [((.multipleTypesFromBranchWarning name : TypeCheckerIssue), pos)] ++ miss' := rfl
            rw [this, warn_count_append, warn_count_warning_ne k name pos (Ne.symm hkname), hb]
          · intro hnee
            obtain ⟨ha, hb⟩ := hprops.2 hnee
            refine ⟨ha, ?_⟩
            have : (.multipleTypesFromBranchWarning name, pos) :: miss' =
                [((.multipleTypesFromBranchWarning name : TypeCheckerIssue), pos)] ++ miss' := rfl
            rw [this, warn_count_append, warn_count_warning_ne k name pos (Ne.symm hkname), hb]
      · intro k hk
        have hkname : k ≠ name := fun hkn => hk (hkn ▸ List.mem_cons_self name rest)
        have hkrest : k ∉ rest := fun hkr => hk (List.mem_cons_of_mem name hkr)
        obtain ⟨hgenv, hwc⟩ := hout k hkrest
        constructor
        · rw [hgenv, env_get_set_other env name k .any hkname]
        · have : (.multipleTypesFromBranchWarning name, pos) :: miss' =
              [((.multipleTypesFromBranchWarning name : TypeCheckerIssue), pos)] ++ miss' := rfl
          rw [this, warn_count_append, warn_count_warning_ne k name pos (Ne.symm hkname), hwc]
    · -- agreement: write the agreed type back
      have heq : t2 = t1 := not_not.mp (fun hc => hne hc)
      subst heq
      have hrun : merge_loop pos te ee (name :: rest) env acc =
          merge_loop pos te ee rest ((env.set name t2).2) acc := by
        simp only [merge_loop, ht1, ht2, if_neg hne]
      have hsome' : ∀ k ∈ rest, (te.get_type k).isSome = true ∧
          (ee.get_type k).isSome = true ∧
          (((env.set name t2).2).get_type k).isSome = true := by
        intro k hk
        have hkname : k ≠ name := fun hkn => hname_not_rest (hkn ▸ hk)
        obtain ⟨h1, h2, h3⟩ := hsome k (List.mem_cons_of_mem name hk)
        exact ⟨h1, h2, by rw [env_get_set_other env name k t2 hkname]; exact h3⟩
      obtain ⟨miss', env', hrun', hin, hout⟩ :=
        ih pos te ee ((env.set name t2).2) acc hrest_nodup hsome'
      refine ⟨miss', env', ?_, ?_, ?_⟩
      · rw [hrun, hrun']
      · intro k hk
        rcases List.mem_cons.mp hk with rfl | hkrest
        · refine ⟨t2, t2, ht1, ht2, ?_, ?_⟩
          · intro _
            obtain ⟨hgenv, hwc⟩ := hout k hname_not_rest
            exact ⟨by rw [hgenv, env_get_set_same env k t2 henv], hwc⟩
          · intro hcon; exact absurd rfl hcon
        · exact hin k hkrest
      · intro k hk
        have hkname : k ≠ name := fun hkn => hk (hkn ▸ List.mem_cons_self name rest)
        have hkrest : k ∉ rest := fun hkr => hk (List.mem_cons_of_mem name hkr)
        obtain ⟨hgenv, hwc⟩ := hout k hkrest
        exact ⟨by rw [hgenv, env_get_set_other env name k t2 hkname], hwc⟩

theorem declare_keysRel (env : TypeEnvironment) (v : ast.Variable) (ty : Ty)
    (env' : TypeEnvironment) (h : env.declare v ty = some env') :
    KeysRel env.symbol_tables env'.symbol_tables := by
  cases v with
  | identifier bt id =>
    unfold TypeEnvironment.declare at h
    cases hts : env.symbol_tables with
    | nil => rw [hts] at h; cases h
    | cons t rest =>
      rw [hts] at h
      injection h with h'
      subst h'
      exact ⟨insert_subKeys t id ty, forall₂_sameKeys_refl rest⟩

theorem check_keys_invariant :
    ∀ f : Nat,
      (∀ (s : ast.StatementNode) (env : TypeEnvironment)
         (iss : List TypeCheckerIssueWithPosition) (env' : TypeEnvironment),
         check_statement_c f s env = .ok (iss, env') →
         KeysRel env.symbol_tables env'.symbol_tables) ∧
      (∀ (ss : List ast.StatementNode) (env : TypeEnvironment)
         (iss : List TypeCheckerIssueWithPosition) (env' : TypeEnvironment),
         check_statements_c f ss env = .ok (iss, env') →
         KeysRel env.symbol_tables env'.symbol_tables) := by
  intro f
  induction f with
  | zero =>
    constructor
    · intro s env iss env' h; simp [check_statement_c] at h
    · intro ss env iss env' h; simp [check_statements_c] at h
  | succ f ihf =>
    obtain ⟨ihs, ihss⟩ := ihf
    constructor
    · intro s env iss env' h
      cases s with
      | variableDeclaration pos v e =>
        simp only [check_statement_c] at h
        obtain ⟨r, hr, h⟩ := tres_bind_eq_ok h
        rcases hct : checkedTypeOf e r with ⟨iss0, ct⟩
        simp only [hct] at h
        cases hd : env.declare v ct with
        | none => rw [hd] at h; cases h
        | some env₁ =>
          rw [hd] at h
          cases h
          exact declare_keysRel env v ct _ hd
      | assignment pos lhs e =>
        simp only [check_statement_c] at h
        obtain ⟨r, hr, h⟩ := tres_bind_eq_ok h
        rcases hct : checkedTypeOf e r with ⟨iss0, ct⟩
        simp only [hct] at h
        cases lhs with
        | mk lpos ldata =>
          cases ldata with
          | identifier id =>
            rcases hset : env.set id ct with ⟨found, env₁⟩
            simp only [hset] at h
            have hsnd : (env.set id ct).2 = env₁ := by rw [hset]
            cases found with
            | true =>
              rw [if_pos rfl] at h
              cases h
              rw [← hsnd]
              exact keysRel_of_forall₂ (env_set_sameKeys env id ct)
            | false =>
              rw [if_neg (by simp)] at h
              cases h
              rw [← hsnd]
              exact keysRel_of_forall₂ (env_set_sameKeys env id ct)
      | block pos ss =>
        simp only [check_statement_c] at h
        obtain ⟨⟨iss₁, env₁⟩, hr, h⟩ := tres_bind_eq_ok h
        have hks := ihss ss env.start_scope _ _ hr
        cases henv₁ : env₁.symbol_tables with
        | nil =>
          rw [henv₁] at hks
          exact hks.elim
        | cons t₁ rest₁ =>
          rw [henv₁] at hks
          obtain ⟨_, hf⟩ := hks
          have hend : env₁.end_scope.symbol_tables = rest₁ := by
            simp [TypeEnvironment.end_scope, henv₁]
          cases h
          rw [hend]
          exact keysRel_of_forall₂ hf
      | expression pos e =>
        simp only [check_statement_c] at h
        obtain ⟨r, hr, h⟩ := tres_bind_eq_ok h
        cases r with
        | error e' => cases h; exact keysRel_refl _
        | ok t => cases h; exact keysRel_refl _
      | ifThen pos c thenBlock =>
        simp only [check_statement_c] at h
        obtain ⟨r, hr, h⟩ := tres_bind_eq_ok h
        cases hearly : if_cond_early c r with
        | inl early => rw [hearly] at h; cases h; exact keysRel_refl _
        | inr condIssues =>
          rw [hearly] at h
          obtain ⟨⟨iss₁, env₁⟩, h1, h⟩ := tres_bind_eq_ok h
          cases h
          exact ihs thenBlock env _ _ h1
      | ifThenElse pos c thenBlock elseBlock =>
        simp only [check_statement_c] at h
        obtain ⟨r, hr, h⟩ := tres_bind_eq_ok h
        cases hearly : if_cond_early c r with
        | inl early => rw [hearly] at h; cases h; exact keysRel_refl _
        | inr condIssues =>
          rw [hearly] at h
          obtain ⟨⟨iss₁, e1⟩, h1, h⟩ := tres_bind_eq_ok h
          obtain ⟨⟨iss₂, e2⟩, h2, h⟩ := tres_bind_eq_ok h
          obtain ⟨⟨missues, env₁⟩, hm, h⟩ := tres_bind_eq_ok h
          cases h
          exact keysRel_of_forall₂
            (merge_loop_env_sameKeys _ _ _ _ _ _ _ _ hm)
      | loop pos b =>
        simp only [check_statement_c] at h
        obtain ⟨⟨iss₁, env₁⟩, h1, h⟩ := tres_bind_eq_ok h
        cases h
        exact ihs b env _ _ h1
      | breakStmt pos =>
        simp only [check_statement_c] at h
        cases h
        exact keysRel_refl _
      | empty pos =>
        simp only [check_statement_c] at h
        cases h
        exact keysRel_refl _
    · intro ss env iss env' h
      cases ss with
      | nil =>
        simp only [check_statements_c] at h
        cases h
        exact keysRel_refl _
      | cons s rest =>
        simp only [check_statements_c] at h
        obtain ⟨⟨iss₁, env₁⟩, h1, h⟩ := tres_bind_eq_ok h
        obtain ⟨⟨iss₂, env₂⟩, h2, h⟩ := tres_bind_eq_ok h
        cases h
        exact keysRel_trans (ihs s env _ _ h1) (ihss rest env₁ _ _ h2)

theorem block_check_sameKeys (f : Nat) (p : SpanPos) (ss : List ast.StatementNode)
    (env : TypeEnvironment) (iss : List TypeCheckerIssueWithPosition)
    (env' : TypeEnvironment)
    (h : check_statement_c (f + 1) (.block p ss) env = .ok (iss, env')) :
    List.Forall₂ SymbolTable.sameKeys env.symbol_tables env'.symbol_tables := by
  simp only [check_statement_c] at h
  obtain ⟨⟨iss₁, env₁⟩, hr, h⟩ := tres_bind_eq_ok h
  have hks := (check_keys_invariant f).2 ss env.start_scope _ _ hr
  cases henv₁ : env₁.symbol_tables with
  | nil =>
    rw [henv₁] at hks
    exact hks.elim
  | cons t₁ rest₁ =>
    rw [henv₁] at hks
    obtain ⟨_, hf⟩ := hks
    have hend : env₁.end_scope.symbol_tables = rest₁ := by
      simp [TypeEnvironment.end_scope, henv₁]
    cases h
    rw [hend]
    exact hf

theorem merge_hyps_of_block_branches {env e1 e2 : TypeEnvironment}
    (hf1 : List.Forall₂ SymbolTable.sameKeys env.symbol_tables e1.symbol_tables)
    (hf2 : List.Forall₂ SymbolTable.sameKeys env.symbol_tables e2.symbol_tables) :
    ∀ k ∈ e1.get_all_keys, (e1.get_type k).isSome = true ∧
      (e2.get_type k).isSome = true ∧ (env.get_type k).isSome = true := by
  intro k hk
  have hk1 : (e1.get_type k).isSome = true :=
    (mem_get_all_keys_iff_get_type e1 k).mp hk
  have henvk : (env.get_type k).isSome = true := by
    show (TypeEnvironment.get_type_tables k env.symbol_tables).isSome = true
    rw [forall₂_sameKeys_get_isSome hf1 k]
    exact hk1
  have hk2 : (e2.get_type k).isSome = true := by
    show (TypeEnvironment.get_type_tables k e2.symbol_tables).isSome = true
    rw [← forall₂_sameKeys_get_isSome hf2 k]
    exact henvk
  exact ⟨hk1, hk2, henvk⟩

/-- Counterexample to C10: when the then branch is a bare declaration (not
a Block), `if (true) let x = 1; else ;` puts `x` into the then copy's
outermost scope only; the merge's unwrapped lookup of `x` in the else copy
fails and the checker panics. -/
theorem merge_panics_on_then_only_name :
    check_statement_c 20 ifThenDeclaresX envEmptyScope = .panicked := rfl

/-- C10 amended: when both branches of an `IfThenElse` are Blocks, checking
a Block leaves every scope's name set unchanged, so each name visible in
the (post-check) then copy is also visible in the else copy and in the
parent; the merge's unwrapped lookups therefore all succeed and the check
returns normally (no panic), with the merge's issues appended after the
branches' issues. -/
theorem block_branch_merge_never_panics :
    ∀ (f : Nat) (p tp ep : SpanPos) (c : ast.ExprNode)
      (tss ess : List ast.StatementNode) (env : TypeEnvironment) (t : Ty)
      (iss1 iss2 : List TypeCheckerIssueWithPosition) (e1 e2 : TypeEnvironment),
      check_expr f c env = .ok (.ok (some t)) →
      check_statement_c f (.block tp tss) env = .ok (iss1, e1) →
      check_statement_c f (.block ep ess) env = .ok (iss2, e2) →
      ∃ miss env',
        check_statement_c (f + 1) (.ifThenElse p c (.block tp tss) (.block ep ess)) env =
          .ok (iss1 ++ iss2 ++ miss, env') := by
  intro f p tp ep c tss ess env t iss1 iss2 e1 e2 hc h1 h2
  cases f with
  | zero => simp [check_statement_c] at h1
  | succ g =>
    have hf1 := block_check_sameKeys g tp tss env iss1 e1 h1
    have hf2 := block_check_sameKeys g ep ess env iss2 e2 h2
    obtain ⟨miss, env', hrun, _, _⟩ :=
      merge_loop_spec e1.get_all_keys p e1 e2 env [] (List.nodup_dedup _)
        (merge_hyps_of_block_branches hf1 hf2)
    refine ⟨miss, env', ?_⟩
    have hstep : check_statement_c (g + 1 + 1)
        (.ifThenElse p c (.block tp tss) (.block ep ess)) env =
        (check_expr (g + 1) c env).bind fun r =>
          match if_cond_early c r with
          | .inl early => .ok (early, env)
          | .inr condIssues =>
            (check_statement_c (g + 1) (.block tp tss) env).bind fun x =>
              (check_statement_c (g + 1) (.block ep ess) env).bind fun y =>
                (merge_loop p x.2 y.2 x.2.get_all_keys env []).bind fun z =>
                  .ok (condIssues ++ x.1 ++ y.1 ++ z.1, z.2) := rfl
    rw [hstep, hc]
    simp only [TRes.bind, if_cond_early, h1, h2, hrun]
    simp

/-- Counterexample to C1: the merge iterates only the names visible in the
THEN copy.  For `if (true) { } else let y = 1;` starting from `x : Number`,
the else copy ends with `y : Number` (second conjunct) — so `y` is visible
in one copy and absent from the other — yet the whole check returns no
`MultipleTypesFromBranchWarning` at all and leaves the parent environment
untouched (first conjunct): nothing is merged or reported for `y`. -/
theorem merge_ignores_else_only_name :
    check_statement_c 20 ifElseDeclaresY envX = .ok ([], envX)
  ∧ check_statement_c 19 declYStmt envX =
      .ok ([], ⟨[[("x", Ty.number), ("y", Ty.number)]]⟩)
  ∧ TypeEnvironment.get_type ⟨[[("x", Ty.number), ("y", Ty.number)]]⟩ "y" =
      some Ty.number
  ∧ envX.get_type "y" = none :=
  ⟨rfl, rfl, rfl, rfl⟩

/-- C1 amended: for an `IfThenElse` with Block branches (checked against
independent copies of the incoming environment), the merge runs over the
names visible in the THEN copy only: for such a name, if the else copy
assigns the same type it is written back into the parent, if it assigns a
different type the parent entry is forced to `Any` and exactly one
`MultipleTypesFromBranchWarning` for that name is emitted among the merge's
issues; every other name keeps its parent type and gets no warning. -/
theorem ifthenelse_merge_then_copy_rule :
    ∀ (f : Nat) (p tp ep : SpanPos) (c : ast.ExprNode)
      (tss ess : List ast.StatementNode) (env : TypeEnvironment) (t : Ty)
      (iss1 iss2 : List TypeCheckerIssueWithPosition) (e1 e2 : TypeEnvironment),
      check_expr f c env = .ok (.ok (some t)) →
      check_statement_c f (.block tp tss) env = .ok (iss1, e1) →
      check_statement_c f (.block ep ess) env = .ok (iss2, e2) →
      ∃ miss env',
        check_statement_c (f + 1) (.ifThenElse p c (.block tp tss) (.block ep ess)) env =
          .ok (iss1 ++ iss2 ++ miss, env') ∧
        (∀ k ∈ e1.get_all_keys, ∃ t1 t2,
           e1.get_type k = some t1 ∧ e2.get_type k = some t2 ∧
           ((t1 = t2 → env'.get_type k = some t1 ∧ warn_count k miss = 0) ∧
            (t1 ≠ t2 → env'.get_type k = some Ty.any ∧ warn_count k miss = 1))) ∧
        (∀ k, k ∉ e1.get_all_keys →
           env'.get_type k = env.get_type k ∧ warn_count k miss = 0) := by
  intro f p tp ep c tss ess env t iss1 iss2 e1 e2 hc h1 h2
  cases f with
  | zero => simp [check_statement_c] at h1
  | succ g =>
    have hf1 := block_check_sameKeys g tp tss env iss1 e1 h1
    have hf2 := block_check_sameKeys g ep ess env iss2 e2 h2
    obtain ⟨miss, env', hrun, hin, hout⟩ :=
      merge_loop_spec e1.get_all_keys p e1 e2 env [] (List.nodup_dedup _)
        (merge_hyps_of_block_branches hf1 hf2)
    refine ⟨miss, env', ?_, hin, hout⟩
    have hstep : check_statement_c (g + 1 + 1)
        (.ifThenElse p c (.block tp tss) (.block ep ess)) env =
        (check_expr (g + 1) c env).bind fun r =>
          match if_cond_early c r with
          | .inl early => .ok (early, env)
          | .inr condIssues =>
            (check_statement_c (g + 1) (.block tp tss) env).bind fun x =>
              (check_statement_c (g + 1) (.block ep ess) env).bind fun y =>
                (merge_loop p x.2 y.2 x.2.get_all_keys env []).bind fun z =>
                  .ok (condIssues ++ x.1 ++ y.1 ++ z.1, z.2) := rfl
    rw [hstep, hc]
    simp only [TRes.bind, if_cond_early, h1, h2, hrun]
    simp

/-- Witness for `block_branch_merge_never_panics`: the spec's own merge
example `if (true) { x = true; } else { }` from `x : Number`. -/
theorem block_branch_merge_never_panics_witness :
    ∃ miss env',
      check_statement_c 11 (.ifThenElse spanA (.literal spanA (.bool true))
          (.block spanB [.assignment spanB ⟨spanB, .identifier "x"⟩
            (.literal spanB (.bool true))])
          (.block spanC [])) envX =
        .ok ([] ++ [] ++ miss, env') :=
  block_branch_merge_never_panics 10 spanA spanB spanC (.literal spanA (.bool true))
    [.assignment spanB ⟨spanB, .identifier "x"⟩ (.literal spanB (.bool true))] []
    envX Ty.bool [] [] envXBool envX (by rfl) (by rfl) (by rfl)

/-- Witness for `ifthenelse_merge_then_copy_rule`: in the spec's merge
example the then copy ends with `x : Bool`, the else copy with `x : Number`,
and the merge forces `Any` with exactly one warning for `x`. -/
theorem ifthenelse_merge_then_copy_rule_witness :
    ∃ miss env',
      check_statement_c 11 (.ifThenElse spanA (.literal spanA (.bool true))
          (.block spanB [.assignment spanB ⟨spanB, .identifier "x"⟩
            (.literal spanB (.bool true))])
          (.block spanD [])) envX =
        .ok ([] ++ [] ++ miss, env') ∧
      (∀ k ∈ envXBool.get_all_keys, ∃ t1 t2,
         envXBool.get_type k = some t1 ∧ envX.get_type k = some t2 ∧
         ((t1 = t2 → env'.get_type k = some t1 ∧ warn_count k miss = 0) ∧
          (t1 ≠ t2 → env'.get_type k = some Ty.any ∧ warn_count k miss = 1))) ∧
      (∀ k, k ∉ envXBool.get_all_keys →
         env'.get_type k = envX.get_type k ∧ warn_count k miss = 0) :=
  ifthenelse_merge_then_copy_rule 10 spanA spanB spanD (.literal spanA (.bool true))
    [.assignment spanB ⟨spanB, .identifier "x"⟩ (.literal spanB (.bool true))] []
    envX Ty.bool [] [] envXBool envX (by rfl) (by rfl) (by rfl)
